import Mathlib

/-!
Shallow embedding of `src/controllers/tableOperations.js` (table-operations
package): the three movers `moveItems`, `moveTable` and `moveKOT` over an
explicit relational state.  JSON item maps are modelled as association lists
(JavaScript objects preserve insertion order and have no duplicate keys),
machine numbers as `Int`/`Nat`, SQL result sets as filtered lists in state
order, and the external order-upsert collaborator (`createOrUpdateOrder`,
which lives in another package) as a recorded `UpsertCall` in the state.
-/

set_option linter.unusedVariables false

/-- One customization line of an item (`variation`, `addons`, `qty`,
`qtyChange?`, `isBasic`, `price`, `instructions`).  `variation` and `addons`
stand for the JSON payloads compared via `JSON.stringify` in the source, so
structural equality is string equality. -/
structure CustomizationLine where
  variation : String := ""
  addons : String := ""
  qty : Int := 0
  qtyChange : Option Int := none
  isBasic : Bool := false
  price : Int := 0
  instructions : String := ""
  deriving DecidableEq, Repr

/-- An entry of an order's (or notification snapshot's) item map. -/
structure ItemEntry where
  name : String := ""
  added : String := ""
  totalQty : Option Int := none
  customizations : List CustomizationLine := []
  deriving DecidableEq, Repr

/-- A JSON object mapping item ids to item entries, in insertion order. -/
abbrev ItemMap := List (String × ItemEntry)

/-- First-match lookup, as JavaScript property access `m[k]`. -/
def lookupItem : ItemMap → String → Option ItemEntry
  | [], _ => none
  | (k', v) :: rest, k => if k' = k then some v else lookupItem rest k

/-- JavaScript property assignment `m[k] = v`: replace in place if the key is
present, otherwise append at the end. -/
def setItem : ItemMap → String → ItemEntry → ItemMap
  | [], k, v => [(k, v)]
  | (k', v') :: rest, k, v =>
    if k' = k then (k, v) :: rest else (k', v') :: setItem rest k v

/-- JavaScript `delete m[k]`. -/
def eraseItem : ItemMap → String → ItemMap
  | [], _ => []
  | (k', v') :: rest, k =>
    if k' = k then eraseItem rest k else (k', v') :: eraseItem rest k

@[simp] theorem lookupItem_nil (k : String) : lookupItem [] k = none := rfl

theorem lookupItem_setItem_self (m : ItemMap) (k : String) (v : ItemEntry) :
    lookupItem (setItem m k v) k = some v := by
  induction m with
  | nil => simp [setItem, lookupItem]
  | cons p rest ih =>
    obtain ⟨k', v'⟩ := p
    by_cases h : k' = k
    · simp [setItem, h, lookupItem]
    · simp [setItem, h, lookupItem, ih]

theorem lookupItem_setItem_ne (m : ItemMap) (k k' : String) (v : ItemEntry)
    (h : k ≠ k') : lookupItem (setItem m k v) k' = lookupItem m k' := by
  induction m with
  | nil => simp [setItem, lookupItem, h]
  | cons p rest ih =>
    obtain ⟨k₀, v₀⟩ := p
    by_cases h₀ : k₀ = k
    · subst h₀
      simp [setItem, lookupItem, h]
    · simp [setItem, h₀, lookupItem, ih]

theorem lookupItem_eraseItem_self (m : ItemMap) (k : String) :
    lookupItem (eraseItem m k) k = none := by
  induction m with
  | nil => simp [eraseItem]
  | cons p rest ih =>
    obtain ⟨k₀, v₀⟩ := p
    by_cases h₀ : k₀ = k
    · simp [eraseItem, h₀, ih]
    · simp [eraseItem, h₀, lookupItem, ih]

theorem lookupItem_eraseItem_ne (m : ItemMap) (k k' : String) (h : k ≠ k') :
    lookupItem (eraseItem m k) k' = lookupItem m k' := by
  induction m with
  | nil => simp [eraseItem]
  | cons p rest ih =>
    obtain ⟨k₀, v₀⟩ := p
    by_cases h₀ : k₀ = k
    · subst h₀
      simp [eraseItem, lookupItem, h, ih]
    · simp [eraseItem, h₀, lookupItem, ih]

theorem lookupItem_eq_none_of_not_mem_keys (m : ItemMap) (k : String)
    (h : k ∉ m.map Prod.fst) : lookupItem m k = none := by
  induction m with
  | nil => rfl
  | cons p rest ih =>
    obtain ⟨k₀, v₀⟩ := p
    simp only [List.map_cons, List.mem_cons] at h
    push_neg at h
    simp [lookupItem, Ne.symm h.1, ih h.2]

/-- An order row (`orders` table): `json_data.items`, the `instructions`
column, `print_status` and `created_at`. -/
structure Order where
  id : String := ""
  restaurantId : String := ""
  tableId : String := ""
  items : ItemMap := []
  instructions : String := ""
  printStatus : Bool := false
  createdAt : Nat := 0
  deriving DecidableEq, Repr

/-- A kitchen-ticket row (`notifications` table). -/
structure Notification where
  notificationId : Int := 0
  restaurantId : String := ""
  orderId : String := ""
  tableNumber : String := ""
  actionType : String := ""
  data : Option ItemMap := none
  active : Bool := true
  createdAt : Nat := 0
  deriving DecidableEq, Repr

/-- A delivery-ledger row (`order_customization_deliveries` table). -/
structure Delivery where
  id : Nat := 0
  notificationId : Int := 0
  orderId : String := ""
  itemId : String := ""
  details : CustomizationLine := {}
  delivered : Bool := false
  cancelled : Bool := false
  deriving DecidableEq, Repr

/-- A `table_otps` row. -/
structure TableOtp where
  restaurantId : String := ""
  tableId : String := ""
  deriving DecidableEq, Repr

/-- A `discounts` row. -/
structure Discount where
  restaurantId : String := ""
  tableNumber : String := ""
  isActive : Bool := true
  deriving DecidableEq, Repr

/-- A `dynamic_offers` row. -/
structure DynamicOffer where
  restaurantId : String := ""
  orderId : String := ""
  tableId : String := ""
  active : Bool := true
  deriving DecidableEq, Repr

/-- A `captains` row with its `assigned_tables` JSON array. -/
structure Captain where
  restaurantId : String := ""
  assignedTables : List String := []
  deriving DecidableEq, Repr

/-- One invocation of the external `createOrUpdateOrder` collaborator
(the order-upsert service lives outside this repository); the movers are
observed through the request bodies they construct. -/
structure UpsertCall where
  restaurantId : String := ""
  tableId : String := ""
  items : ItemMap := []
  orderType : String := "captain"
  orderId : Option String := none
  forceNewOrder : Bool := false
  deriving DecidableEq, Repr

/-- The storage state: the relational tables touched by the three movers,
plus the trace of calls made to the external order-upsert collaborator. -/
structure DB where
  orders : List Order := []
  notifications : List Notification := []
  deliveries : List Delivery := []
  tableOtps : List TableOtp := []
  discounts : List Discount := []
  dynamicOffers : List DynamicOffer := []
  captains : List Captain := []
  upsertCalls : List UpsertCall := []
  deriving DecidableEq, Repr

/-- The summary object returned by `moveTable`. -/
structure Summary where
  ordersUpdated : Nat := 0
  notificationsUpdated : Nat := 0
  otpUpdated : Nat := 0
  discountUpdated : Nat := 0
  dynamicOffersUpdated : Nat := 0
  captainsUpdated : Nat := 0
  deriving DecidableEq, Repr

/-- Argument object of `moveTable` (`orderId` is optional). -/
structure TableMoveInput where
  oldTableId : String := ""
  newTableId : String := ""
  restaurantId : String := ""
  orderId : Option String := none
  deriving DecidableEq, Repr

/-- One `{itemId, quantity}` request of `moveItems`. -/
structure ItemReq where
  itemId : String := ""
  quantity : Int := 0
  deriving DecidableEq, Repr

/-- Argument object of `moveItems`. -/
structure MoveItemsInput where
  restaurantId : String := ""
  oldTableId : String := ""
  newTableId : String := ""
  orderId : String := ""
  items : List ItemReq := []
  deriving DecidableEq, Repr

/-- Argument object of `moveKOT`; `notificationIds = none` models a value
that is not an array, and an absent string field is modelled by `""`
(the JavaScript falsiness check). -/
structure MoveKOTInput where
  oldTableId : String := ""
  newTableId : String := ""
  restaurantId : String := ""
  orderId : String := ""
  notificationIds : Option (List Int) := none
  deriving DecidableEq, Repr

/-- Return value of `moveItems`: either the summary produced by delegating to
`moveTable`, or the `{success, message}` acknowledgement. -/
inductive MoveResult where
  | tableMoved (s : Summary)
  | itemsMoved
  deriving DecidableEq, Repr

/-- Return value of the data-shaped `moveKOT`. -/
inductive KOTResult where
  | missingFields
  | tableMoved (s : Summary)
  | caught (e : String)
  | ok
  deriving DecidableEq, Repr

/-- Return value of the request/response-shaped `moveKOT`. -/
inductive ExpressResult where
  | response (code : Nat) (body : String)
  | summary (s : Summary)
  deriving DecidableEq, Repr

/-- Sort key actually used by the `ORDER BY print_status ASC, created_at ASC`
clauses: non-printed orders first, then by creation time. -/
def printKey (o : Order) : Nat := if o.printStatus then 1 else 0

/-- The comparison behind `ORDER BY print_status ASC, created_at ASC`. -/
def orderLE (a b : Order) : Bool :=
  decide (printKey a < printKey b ∨
    (printKey a = printKey b ∧ a.createdAt ≤ b.createdAt))

theorem orderLE_total (a b : Order) : orderLE a b = true ∨ orderLE b a = true := by
  simp only [orderLE, decide_eq_true_eq]
  omega

theorem orderLE_trans (a b c : Order) (hab : orderLE a b = true)
    (hbc : orderLE b c = true) : orderLE a c = true := by
  simp only [orderLE, decide_eq_true_eq] at hab hbc ⊢
  omega

/-- Insert one order into a list sorted by `orderLE`. -/
def insertOrd (a : Order) : List Order → List Order
  | [] => [a]
  | b :: l => if orderLE a b then a :: b :: l else b :: insertOrd a l

/-- The result set of a dest-order query with
`ORDER BY print_status ASC, created_at ASC`. -/
def sortOrders : List Order → List Order
  | [] => []
  | a :: l => insertOrd a (sortOrders l)

theorem mem_insertOrd (x a : Order) (l : List Order) :
    x ∈ insertOrd a l ↔ x = a ∨ x ∈ l := by
  induction l with
  | nil => simp [insertOrd]
  | cons b l ih =>
    by_cases h : orderLE a b
    · simp [insertOrd, h]
    · simp [insertOrd, h, ih]
      tauto

theorem mem_sortOrders (x : Order) (l : List Order) :
    x ∈ sortOrders l ↔ x ∈ l := by
  induction l with
  | nil => simp [sortOrders]
  | cons a l ih => simp [sortOrders, mem_insertOrd, ih]

theorem sortOrders_eq_nil_iff (l : List Order) : sortOrders l = [] ↔ l = [] := by
  cases l with
  | nil => simp [sortOrders]
  | cons a l =>
    simp only [sortOrders]
    constructor
    · intro h
      have : a ∈ insertOrd a (sortOrders l) := by
        rw [mem_insertOrd]
        exact Or.inl rfl
      rw [h] at this
      simp at this
    · intro h
      simp at h

theorem insertOrd_pairwise (a : Order) (l : List Order)
    (hl : l.Pairwise (fun x y => orderLE x y = true)) :
    (insertOrd a l).Pairwise (fun x y => orderLE x y = true) := by
  induction l with
  | nil => simp [insertOrd]
  | cons b l ih =>
    rcases List.pairwise_cons.mp hl with ⟨hb, hl'⟩
    by_cases h : orderLE a b
    · simp only [insertOrd, h, if_pos]
      refine List.pairwise_cons.mpr ⟨?_, hl⟩
      intro x hx
      rw [List.mem_cons] at hx
      rcases hx with heq | hx
      · subst heq
        exact h
      · exact orderLE_trans a b x h (hb x hx)
    · simp only [insertOrd, h, if_neg, Bool.false_eq_true, not_false_iff, ite_false]
      refine List.pairwise_cons.mpr ⟨?_, ih hl'⟩
      intro x hx
      rw [mem_insertOrd] at hx
      rcases hx with heq | hx
      · subst heq
        rcases orderLE_total x b with h' | h'
        · exact absurd h' h
        · exact h'
      · exact hb x hx

theorem sortOrders_pairwise (l : List Order) :
    (sortOrders l).Pairwise (fun x y => orderLE x y = true) := by
  induction l with
  | nil => simp [sortOrders]
  | cons a l ih => exact insertOrd_pairwise a (sortOrders l) ih

theorem find?_min_of_pairwise (p : Order → Bool) (l : List Order) (t : Order)
    (hp : l.Pairwise (fun x y => orderLE x y = true))
    (h : l.find? p = some t) :
    t ∈ l ∧ p t = true ∧ ∀ x ∈ l, p x = true → orderLE t x = true := by
  induction l with
  | nil => simp at h
  | cons a l ih =>
    rcases List.pairwise_cons.mp hp with ⟨ha, hl⟩
    by_cases hpa : p a
    · rw [List.find?_cons_of_pos _ hpa] at h
      injection h with h
      subst h
      refine ⟨List.mem_cons_self _ _, hpa, ?_⟩
      intro x hx _
      rw [List.mem_cons] at hx
      rcases hx with heq | hx
      · subst heq
        simp [orderLE]
      · exact ha x hx
    · rw [List.find?_cons_of_neg _ hpa] at h
      obtain ⟨ht, hpt, hmin⟩ := ih hl h
      refine ⟨List.mem_cons_of_mem _ ht, hpt, ?_⟩
      intro x hx hpx
      rw [List.mem_cons] at hx
      rcases hx with heq | hx
      · subst heq
        exact absurd hpx hpa
      · exact hmin x hx hpx

/-- `[a, b].filter(Boolean).join(sep)`: drop empty strings, then join. -/
def joinNonEmpty (sep : String) (l : List String) : String :=
  String.intercalate sep (l.filter (fun s => s ≠ ""))

/-- Merge of two item maps in `moveTable`: start from the destination map and
fold the source entries in; an item present on both sides keeps the
concatenation of both customization-line lists, a new item is appended. -/
def mergeItems (existing source : ItemMap) : ItemMap :=
  source.foldl (fun acc kv =>
    match lookupItem acc kv.1 with
    | some e =>
      setItem acc kv.1 { e with customizations := e.customizations ++ kv.2.customizations }
    | none => setItem acc kv.1 kv.2) existing

theorem lookupItem_mergeItems (a b : ItemMap) (k : String)
    (hb : (b.map Prod.fst).Nodup) :
    lookupItem (mergeItems a b) k =
      match lookupItem a k, lookupItem b k with
      | some ea, some eb =>
        some { ea with customizations := ea.customizations ++ eb.customizations }
      | some ea, none => some ea
      | none, some eb => some eb
      | none, none => none := by
  induction b generalizing a with
  | nil =>
    cases h : lookupItem a k <;> simp [mergeItems, lookupItem, h]
  | cons p rest ih =>
    obtain ⟨k₀, v₀⟩ := p
    simp only [List.map_cons, List.nodup_cons] at hb
    have hstep : mergeItems a ((k₀, v₀) :: rest) =
        mergeItems (match lookupItem a k₀ with
          | some e => setItem a k₀ { e with customizations := e.customizations ++ v₀.customizations }
          | none => setItem a k₀ v₀) rest := by
      cases h : lookupItem a k₀ <;> simp [mergeItems, h]
    rw [hstep, ih _ hb.2]
    by_cases hk : k₀ = k
    · subst hk
      have hrest : lookupItem rest k₀ = none :=
        lookupItem_eq_none_of_not_mem_keys rest k₀ hb.1
      cases h : lookupItem a k₀ <;>
        simp [h, lookupItem, hrest, lookupItem_setItem_self]
    · have hset : ∀ v, lookupItem (setItem a k₀ v) k = lookupItem a k :=
        fun v => lookupItem_setItem_ne a k₀ k v hk
      cases h : lookupItem a k₀ <;> simp [h, lookupItem, hk, hset]

/-- The `2a` merge branch of `moveTable`: write the merged item map and
instructions onto the destination order, repoint active tickets and all
delivery records from the source order's id to the destination order's id,
then delete the source order row. -/
def mergeInto (db : DB) (destOrder srcOrder : Order)
    (restaurantId newTableId : String) : DB :=
  let mergedItems := mergeItems destOrder.items srcOrder.items
  let mergedInstructions := joinNonEmpty "\n" [destOrder.instructions, srcOrder.instructions]
  { db with
    orders := (db.orders.map (fun o =>
        if o.id = destOrder.id then
          { o with items := mergedItems, instructions := mergedInstructions }
        else o)).filter (fun o => !(o.id = srcOrder.id)),
    notifications := db.notifications.map (fun n =>
        if n.restaurantId = restaurantId ∧ n.orderId = srcOrder.id ∧ n.active then
          { n with orderId := destOrder.id, tableNumber := newTableId }
        else n),
    deliveries := db.deliveries.map (fun d =>
        if d.orderId = srcOrder.id then { d with orderId := destOrder.id } else d) }

/-- The `2b`/`3` reassign branch of `moveTable`: relabel the source order's
`table_id` to the destination table. -/
def reassign (db : DB) (srcOrderId newTableId : String) : DB :=
  { db with
    orders := db.orders.map (fun o =>
        if o.id = srcOrderId then { o with tableId := newTableId } else o) }

/-- Step 4 of `moveTable`: the four satellite updates plus the captains
`assigned_tables` rewrite, with their row counts. -/
def satellites (db : DB) (inp : TableMoveInput) : DB × Summary :=
  let notifPred := fun (n : Notification) =>
    decide (n.restaurantId = inp.restaurantId ∧ n.tableNumber = inp.oldTableId ∧ n.active)
  let otpPred := fun (t : TableOtp) =>
    decide (t.restaurantId = inp.restaurantId ∧ t.tableId = inp.oldTableId)
  let discPred := fun (d : Discount) =>
    decide (d.restaurantId = inp.restaurantId ∧ d.tableNumber = inp.oldTableId ∧ d.isActive)
  let offerPred := fun (d : DynamicOffer) =>
    decide (d.restaurantId = inp.restaurantId ∧ some d.orderId = inp.orderId ∧
      d.tableId = inp.oldTableId ∧ d.active)
  let captPred := fun (c : Captain) =>
    decide (c.restaurantId = inp.restaurantId ∧ inp.oldTableId ∈ c.assignedTables)
  let db' :=
    { db with
      notifications := db.notifications.map (fun n =>
          if notifPred n then { n with tableNumber := inp.newTableId } else n),
      tableOtps := db.tableOtps.map (fun t =>
          if otpPred t then { t with tableId := inp.newTableId } else t),
      discounts := db.discounts.map (fun d =>
          if discPred d then { d with tableNumber := inp.newTableId } else d),
      dynamicOffers := db.dynamicOffers.map (fun d =>
          if offerPred d then { d with tableId := inp.newTableId } else d),
      captains := db.captains.map (fun c =>
          if captPred c then
            { c with assignedTables :=
                (c.assignedTables.map (fun t =>
                  if t = inp.oldTableId then inp.newTableId else t)).dedup }
          else c) }
  let nc := (db.notifications.filter notifPred).length
  let oc := (db.tableOtps.filter otpPred).length
  let dc := (db.discounts.filter discPred).length
  let yc := (db.dynamicOffers.filter offerPred).length
  let cc := (db.captains.filter captPred).length
  (db', { ordersUpdated := nc + oc + dc + yc + cc,
          notificationsUpdated := nc, otpUpdated := oc, discountUpdated := dc,
          dynamicOffersUpdated := yc, captainsUpdated := cc })

/-- Destination orders of a table, in the query's `ORDER BY` order. -/
def destOrdersFor (db : DB) (restaurantId tableId : String) : List Order :=
  sortOrders (db.orders.filter (fun o =>
    decide (o.restaurantId = restaurantId ∧ o.tableId = tableId)))

/-- Source orders of a table (no `ORDER BY` in the query; state order). -/
def srcOrdersFor (db : DB) (restaurantId tableId : String) : List Order :=
  db.orders.filter (fun o =>
    decide (o.restaurantId = restaurantId ∧ o.tableId = tableId))

/-- The chosen destination target: the first non-printed destination order,
else the first destination order. -/
def mergeTarget (destRows : List Order) : Option Order :=
  match destRows with
  | [] => none
  | d :: _ => some ((destRows.find? (fun o => !o.printStatus)).getD d)

/-- Steps 1-4 of `moveTable` (the session migration and the two
notification dispatches are fire-and-forget external collaborators with no
effect on this state). -/
def moveTableCore (db : DB) (inp : TableMoveInput) : DB × Summary :=
  let destRows := destOrdersFor db inp.restaurantId inp.newTableId
  let srcRows := srcOrdersFor db inp.restaurantId inp.oldTableId
  let db1 :=
    match destRows, srcRows with
    | _ :: _, s :: _ =>
      match mergeTarget destRows with
      | some destOrder =>
        if !destOrder.printStatus then
          mergeInto db destOrder s inp.restaurantId inp.newTableId
        else
          reassign db s.id inp.newTableId
      | none => db
    | [], s :: _ => reassign db s.id inp.newTableId
    | _, [] => db
  satellites db1 inp

/-- `moveTable`: fail fast on a missing/empty required field, otherwise run
the core and return the summary. -/
def moveTable (db : DB) (inp : TableMoveInput) : Except String (DB × Summary) :=
  if inp.oldTableId = "" ∨ inp.newTableId = "" ∨ inp.restaurantId = "" then
    Except.error "Missing required fields"
  else
    Except.ok (moveTableCore db inp)

/-- `item.customizations.reduce((sum, c) => sum + c.qty, 0)`. -/
def totalQtyOf (e : ItemEntry) : Int :=
  e.customizations.foldl (fun s c => s + c.qty) 0

/-- The source order of a `moveItems` call:
`WHERE restaurant_id = $1 AND id = $2 AND table_id = $3`, first row. -/
def fetchSource (db : DB) (i : MoveItemsInput) : Option Order :=
  (db.orders.filter (fun o =>
    decide (o.restaurantId = i.restaurantId ∧ o.id = i.orderId ∧
      o.tableId = i.oldTableId))).head?

/-- The active-ticket fetch of `moveItems`:
`action_type IN ('order_created', 'order-updated') AND active = true`. -/
def fetchNotifs (db : DB) (restaurantId orderId : String) : List Notification :=
  db.notifications.filter (fun n =>
    decide (n.restaurantId = restaurantId ∧ n.orderId = orderId ∧
      (n.actionType = "order_created" ∨ n.actionType = "order-updated") ∧
      n.active))

/-- The delivery-ledger fetch of `moveItems`:
`WHERE order_id = $1 AND delivered = false AND cancelled = false`. -/
def fetchDeliveries (db : DB) (orderId : String) : List Delivery :=
  db.deliveries.filter (fun d =>
    decide (d.orderId = orderId ∧ d.delivered = false ∧ d.cancelled = false))

/-- Step 2 of `moveItems`: for each request, the item must exist in the source
map and the quantity must be at least 1; the first violation is the thrown
error. -/
def validateItems (oldItems : ItemMap) : List ItemReq → Option String
  | [] => none
  | r :: rest =>
    match lookupItem oldItems r.itemId with
    | none => some ("Item " ++ r.itemId ++ " not found in the order")
    | some _ =>
      if r.quantity < 1 then some "Quantity must be at least 1"
      else validateItems oldItems rest

/-- Step 3 of `moveItems`: every source item id is requested, and every
requested quantity equals the item's existing total quantity. -/
def isFullTableMove (oldItems : ItemMap) (reqs : List ItemReq) : Bool :=
  (oldItems.all (fun kv => reqs.any (fun r => r.itemId = kv.1))) &&
  (reqs.all (fun r =>
    match lookupItem oldItems r.itemId with
    | some e => r.quantity = totalQtyOf e
    | none => false))

/-- Step 4a of `moveItems`: the destination snapshot of an item copies its
customization lines, overwriting every line's qty with the requested
quantity. -/
def destSnapshot (e : ItemEntry) (requestedQty : Int) : ItemEntry :=
  { e with customizations := e.customizations.map (fun c => { c with qty := requestedQty }) }

/-- Step 4b of `moveItems` when the requested quantity is below the item's
total: reduce every line by the requested quantity clipped at zero and drop
lines whose remaining qty is not positive. -/
def reduceLines (e : ItemEntry) (requestedQty : Int) : ItemEntry :=
  let clipped := e.customizations.map (fun c => { c with qty := max 0 (c.qty - requestedQty) })
  { e with customizations := clipped.filter (fun c => 0 < c.qty) }

/-- The step-4 loop of `moveItems` building `itemsForNewTable` and
`remainingItems` (each request reads the item from the original source
map). -/
def buildNR (oldItems : ItemMap) : List ItemReq → ItemMap × ItemMap → ItemMap × ItemMap
  | [], acc => acc
  | r :: rest, (newT, rem) =>
    match lookupItem oldItems r.itemId with
    | none => buildNR oldItems rest (newT, rem)
    | some item =>
      let newT' := setItem newT r.itemId (destSnapshot item r.quantity)
      let rem' :=
        if totalQtyOf item ≤ r.quantity then eraseItem rem r.itemId
        else setItem rem r.itemId (reduceLines item r.quantity)
      buildNR oldItems rest (newT', rem')

/-- An `UPDATE order_customization_deliveries SET customization_details`
statement queued by `moveItems`. -/
structure DeliveryUpdate where
  id : Nat := 0
  details : CustomizationLine := {}
  deriving DecidableEq, Repr

/-- Sum of `customization_details.qty` over one notification's delivery rows
(`notifDeliveries.reduce((sum, d) => sum + (d.customization_details.qty || 0), 0)`). -/
def sumDelivQty (ds : List Delivery) : Int :=
  ds.foldl (fun s d => s + d.details.qty) 0

/-- The inner delivery loop of `moveItems` step 4d: drain one notification's
delivery rows under the cap `qtyToReduceFromThisNotif`, producing the queued
updates and the total quantity drained. -/
def drainNotifDeliveries (cap : Int) : List Delivery → List DeliveryUpdate × Int
  | [] => ([], 0)
  | d :: rest =>
    if cap ≤ 0 then ([], 0)
    else
      let currentQty := d.details.qty
      let reduce := min cap currentQty
      if 0 < reduce then
        ({ id := d.id, details := { d.details with qty := currentQty - reduce } } ::
            (drainNotifDeliveries (cap - reduce) rest).1,
          reduce + (drainNotifDeliveries (cap - reduce) rest).2)
      else
        drainNotifDeliveries cap rest

/-- One notification step of `moveItems` step 4d: skip when the notification
has no delivery rows for the item or the cap
`min(remainingQtyToMove, outstanding sum)` is not positive, else drain. -/
def drainStep (remaining : Int) (nds : List Delivery) : List DeliveryUpdate × Int :=
  if nds.isEmpty then ([], 0)
  else
    let cap := min remaining (sumDelivQty nds)
    if cap ≤ 0 then ([], 0)
    else drainNotifDeliveries cap nds

/-- The notification loop of `moveItems` step 4d for one requested item,
over the fetched notifications in fetch order; `remaining` is
`remainingQtyToMove`. -/
def drainAllNotifs (itemId : String) (ds : List Delivery) :
    List Notification → Int → List DeliveryUpdate × Int
  | [], _ => ([], 0)
  | n :: rest, remaining =>
    let nds := ds.filter (fun d =>
      decide (d.itemId = itemId ∧ d.notificationId = n.notificationId))
    let step := drainStep remaining nds
    let next := drainAllNotifs itemId ds rest (remaining - step.2)
    (step.1 ++ next.1, step.2 + next.2)

/-- All delivery updates queued by the step-4 loop of `moveItems`. -/
def computeDeliveryUpdates (notifs : List Notification) (ds : List Delivery) :
    List ItemReq → List DeliveryUpdate
  | [] => []
  | r :: rest =>
    (drainAllNotifs r.itemId ds notifs r.quantity).1 ++
      computeDeliveryUpdates notifs ds rest

/-- Apply the queued delivery updates, each one an `UPDATE ... WHERE id`. -/
def applyDeliveryUpdates (ds : List Delivery) (us : List DeliveryUpdate) : List Delivery :=
  us.foldl (fun ds u =>
    ds.map (fun d => if d.id = u.id then { d with details := u.details } else d)) ds

/-- Sort key of `activeNotifications`
(`sort((a, b) => new Date(a.created_at) - new Date(b.created_at))`). -/
def notifLE (a b : Notification) : Bool := decide (a.createdAt ≤ b.createdAt)

/-- Insertion step for the notification sort. -/
def insertNotif (a : Notification) : List Notification → List Notification
  | [] => [a]
  | b :: l => if notifLE a b then a :: b :: l else b :: insertNotif a l

/-- The `activeNotifications` list: the fetched rows sorted oldest first. -/
def sortNotifs : List Notification → List Notification
  | [] => []
  | a :: l => insertNotif a (sortNotifs l)

/-- The SQL `jsonb` rewrite of one notification item: the basic customization
line's `qty` and `qtyChange` are lowered by the moved amount, and the item
object is rebuilt with only `name`, `added` and `customizations`. -/
def reduceBasic (e : ItemEntry) (delta : Int) : ItemEntry :=
  { name := e.name, added := e.added, totalQty := none,
    customizations := e.customizations.map (fun c =>
      if c.isBasic then
        { c with qty := c.qty - delta, qtyChange := c.qtyChange.map (fun q => q - delta) }
      else c) }

/-- How much the notification loop takes from one (snapshot) notification:
the basic line's qty clipped by what remains to move; 0 when the snapshot has
no data for the item, no basic line, or its qty is not positive. -/
def notifTake (remaining : Int) (n : Notification) (itemId : String) : Int :=
  match n.data with
  | none => 0
  | some m =>
    match lookupItem m itemId with
    | none => 0
    | some e =>
      match e.customizations.find? (fun c => c.isBasic) with
      | none => 0
      | some b => if b.qty ≤ 0 then 0 else min remaining b.qty

/-- The `UPDATE notifications SET notification_data = jsonb_set(...)`
statement: applies to the current row with the given id when it is active. -/
def applyNotifReduction (ns : List Notification) (nid : Int) (itemId : String)
    (delta : Int) : List Notification :=
  ns.map (fun n =>
    if n.notificationId = nid ∧ n.active then
      match n.data with
      | some m =>
        match lookupItem m itemId with
        | some e => { n with data := some (setItem m itemId (reduceBasic e delta)) }
        | none => n
      | none => n
    else n)

/-- The per-item notification loop of `moveItems` (lines 244-304): walks the
sorted snapshot, oldest first, issuing one reduction per notification that
still has quantity, until the requested quantity is exhausted. -/
def notifLoopItem (snap : List Notification) (ns : List Notification)
    (itemId : String) (remaining : Int) : List Notification :=
  match snap with
  | [] => ns
  | n :: rest =>
    if remaining ≤ 0 then ns
    else
      let take := notifTake remaining n itemId
      if 0 < take then
        notifLoopItem rest (applyNotifReduction ns n.notificationId itemId take)
          itemId (remaining - take)
      else
        notifLoopItem rest ns itemId remaining

/-- The full notification loop of `moveItems`, one pass per requested item. -/
def runNotifLoop (snap : List Notification) (ns : List Notification) :
    List ItemReq → List Notification
  | [] => ns
  | r :: rest => runNotifLoop snap (notifLoopItem snap ns r.itemId r.quantity) rest

/-- The cleanup predicate of `moveItems`: a notification is deleted when its
data is NULL, or when no remaining customization line anywhere in its data
has positive qty. -/
def notifEmpty (n : Notification) : Bool :=
  match n.data with
  | none => true
  | some m => m.all (fun kv => kv.2.customizations.all (fun c => c.qty ≤ 0))

/-- Steps 4-7 of `moveItems` after the full-move check has failed: queue and
apply delivery updates, run the notification reduction loop, clean up
emptied notifications, persist (or delete) the source order, and commit the
destination side through the external order-upsert collaborator. -/
def moveItemsCore (db : DB) (i : MoveItemsInput) (oldOrder : Order) : DB × MoveResult :=
  let notifs := fetchNotifs db i.restaurantId i.orderId
  let delivs := fetchDeliveries db i.orderId
  let nr := buildNR oldOrder.items i.items ([], oldOrder.items)
  let updates := computeDeliveryUpdates notifs delivs i.items
  let db1 := { db with deliveries := applyDeliveryUpdates db.deliveries updates }
  let active := sortNotifs notifs
  let db2 := { db1 with notifications := runNotifLoop active db1.notifications i.items }
  let activeIds := active.map (fun n => n.notificationId)
  let db3 := { db2 with notifications :=
      db2.notifications.filter (fun n =>
        !(decide (n.notificationId ∈ activeIds) && notifEmpty n)) }
  let db4 :=
    if nr.2.isEmpty then
      { db3 with orders :=
          db3.orders.filter (fun o =>
            !(decide (o.restaurantId = i.restaurantId ∧ o.id = i.orderId))) }
    else
      { db3 with orders :=
          db3.orders.map (fun o =>
            if o.id = i.orderId ∧ o.restaurantId = i.restaurantId then
              { o with items := nr.2 }
            else o) }
  let destRows := destOrdersFor db4 i.restaurantId i.newTableId
  let forceNew :=
    !destRows.isEmpty && (destRows.find? (fun o => !o.printStatus)).isNone
  let call : UpsertCall :=
    { restaurantId := i.restaurantId, tableId := i.newTableId, items := nr.1,
      orderType := "captain", orderId := none, forceNewOrder := forceNew }
  ({ db4 with upsertCalls := db4.upsertCalls ++ [call] }, MoveResult.itemsMoved)

/-- `moveItems`: fetch and validate, delegate the whole call to `moveTable`
when the request is a full-table move, otherwise run the reconciliation
core. -/
def moveItems (db : DB) (i : MoveItemsInput) : Except String (DB × MoveResult) :=
  match fetchSource db i with
  | none => Except.error "Order not found on source table"
  | some oldOrder =>
    match validateItems oldOrder.items i.items with
    | some e => Except.error e
    | none =>
      if isFullTableMove oldOrder.items i.items then
        match moveTable db { oldTableId := i.oldTableId, newTableId := i.newTableId,
                             restaurantId := i.restaurantId, orderId := some i.orderId } with
        | Except.ok p => Except.ok (p.1, MoveResult.tableMoved p.2)
        | Except.error e => Except.error e
      else
        Except.ok (moveItemsCore db i oldOrder)

/-- The active-KOT count of `moveKOT` step 1. -/
def kotActiveCount (db : DB) (restaurantId orderId : String) : Nat :=
  (db.notifications.filter (fun n =>
    decide (n.restaurantId = restaurantId ∧ n.orderId = orderId ∧
      (n.actionType = "order_created" ∨ n.actionType = "order-updated") ∧
      n.active))).length

/-- Structural customization equality used by `moveKOT` step 6
(`JSON.stringify` of `variation` and of `addons`). -/
def sameCustomization (a b : CustomizationLine) : Bool :=
  decide (a.variation = b.variation ∧ a.addons = b.addons)

/-- Reduce the first source customization line structurally equal to the
moved one by its `qtyChange` (else `qty`), dropping the line at qty <= 0;
only the first match is touched. -/
def removeMatching (mv : CustomizationLine) : List CustomizationLine → List CustomizationLine
  | [] => []
  | c :: rest =>
    if sameCustomization mv c then
      let q := c.qty - (mv.qtyChange.getD mv.qty)
      if q ≤ 0 then rest else { c with qty := q } :: rest
    else c :: removeMatching mv rest

/-- `moveKOT` step 6, one recovered ledger entry: adjust the matching source
item, delete the item when no lines remain, else write back the lines and a
recomputed `totalQty`. -/
def applyKOTRemoval (items : ItemMap) (d : Delivery) : ItemMap :=
  match lookupItem items d.itemId with
  | none => items
  | some e =>
    let cs := removeMatching d.details e.customizations
    if cs.isEmpty then eraseItem items d.itemId
    else
      setItem items d.itemId
        { e with customizations := cs,
                 totalQty := some (cs.foldl (fun s c => s + c.qty) 0) }

/-- `moveKOT` step 5: group the recovered ledger rows into a destination item
snapshot, in fetch order. -/
def buildItemsToPrint (ds : List Delivery) : ItemMap :=
  ds.foldl (fun m d =>
    match lookupItem m d.itemId with
    | some e => setItem m d.itemId { e with customizations := e.customizations ++ [d.details] }
    | none => setItem m d.itemId { customizations := [d.details] }) []

/-- Steps 3-6 of `moveKOT` (the non-delegating path): delete the named
tickets, recover their ledger rows, commit the destination side through the
external order-upsert collaborator, delete the consumed ledger rows, and
write the reduced source order back (never deleting it). -/
def moveKOTCore (db : DB) (i : MoveKOTInput) (ids : List Int) : DB × KOTResult :=
  let db1 := { db with notifications :=
      db.notifications.filter (fun n =>
        !(decide (n.restaurantId = i.restaurantId ∧ n.orderId = i.orderId ∧
          n.notificationId ∈ ids))) }
  let delivs := db1.deliveries.filter (fun d => decide (d.notificationId ∈ ids))
  let itemsToPrint := buildItemsToPrint delivs
  let destRows := destOrdersFor db1 i.restaurantId i.newTableId
  let nonPrinted := destRows.find? (fun o => !o.printStatus)
  let call : UpsertCall :=
    if !destRows.isEmpty && nonPrinted.isNone then
      { restaurantId := i.restaurantId, tableId := i.newTableId, items := itemsToPrint,
        orderType := "captain", orderId := none, forceNewOrder := true }
    else
      match nonPrinted with
      | some t =>
        { restaurantId := i.restaurantId, tableId := i.newTableId, items := itemsToPrint,
          orderType := "captain", orderId := some t.id, forceNewOrder := false }
      | none =>
        { restaurantId := i.restaurantId, tableId := i.newTableId, items := itemsToPrint,
          orderType := "captain", orderId := none, forceNewOrder := false }
  let db2 := { db1 with upsertCalls := db1.upsertCalls ++ [call] }
  let db3 := { db2 with deliveries :=
      db2.deliveries.filter (fun d => !(decide (d.notificationId ∈ ids))) }
  match (db3.orders.filter (fun o =>
      decide (o.restaurantId = i.restaurantId ∧ o.id = i.orderId))).head? with
  | none => (db3, KOTResult.ok)
  | some oldOrder =>
    let newItems := delivs.foldl applyKOTRemoval oldOrder.items
    ({ db3 with orders :=
        db3.orders.map (fun o =>
          if o.id = oldOrder.id then { o with items := newItems } else o) },
      KOTResult.ok)

/-- The data-shaped `moveKOT`: validate, delegate to `moveTable` when the
supplied id list's length equals the active-KOT count, else run the
non-delegating path.  A `moveTable` rejection is caught and surfaced as a
structured failure. -/
def moveKOT (db : DB) (i : MoveKOTInput) : DB × KOTResult :=
  match i.notificationIds with
  | none => (db, KOTResult.missingFields)
  | some ids =>
    if i.oldTableId = "" ∨ i.newTableId = "" ∨ i.restaurantId = "" ∨ i.orderId = "" then
      (db, KOTResult.missingFields)
    else
      if ids.length = kotActiveCount db i.restaurantId i.orderId then
        match moveTable db { oldTableId := i.oldTableId, newTableId := i.newTableId,
                             restaurantId := i.restaurantId, orderId := some i.orderId } with
        | Except.ok p => (p.1, KOTResult.tableMoved p.2)
        | Except.error e => (db, KOTResult.caught e)
      else
        moveKOTCore db i ids

/-- The request/response-shaped `moveKOT` (the Express handler wrapping of
the same logic). -/
def moveKOTExpress (db : DB) (i : MoveKOTInput) : DB × ExpressResult :=
  match moveKOT db i with
  | (db', KOTResult.missingFields) => (db', ExpressResult.response 400 "Missing required fields")
  | (db', KOTResult.tableMoved s) => (db', ExpressResult.summary s)
  | (db', KOTResult.caught _) => (db', ExpressResult.response 500 "Internal server error")
  | (db', KOTResult.ok) => (db', ExpressResult.response 200 "KOT moved successfully")

theorem satellites_orders (db : DB) (inp : TableMoveInput) :
    (satellites db inp).1.orders = db.orders := rfl

theorem satellites_deliveries (db : DB) (inp : TableMoveInput) :
    (satellites db inp).1.deliveries = db.deliveries := rfl

theorem satellites_upsertCalls (db : DB) (inp : TableMoveInput) :
    (satellites db inp).1.upsertCalls = db.upsertCalls := rfl

theorem satellites_notifications_mem (db : DB) (inp : TableMoveInput)
    (n : Notification) (hn : n ∈ db.notifications) :
    ∃ n' ∈ (satellites db inp).1.notifications,
      n'.notificationId = n.notificationId ∧ n'.orderId = n.orderId := by
  have heq : (satellites db inp).1.notifications =
      db.notifications.map (fun n' =>
        if (decide (n'.restaurantId = inp.restaurantId ∧
            n'.tableNumber = inp.oldTableId ∧ n'.active)) = true then
          { n' with tableNumber := inp.newTableId } else n') := rfl
  rw [heq]
  refine ⟨_, List.mem_map_of_mem _ hn, ?_⟩
  by_cases h : decide (n.restaurantId = inp.restaurantId ∧
      n.tableNumber = inp.oldTableId ∧ n.active) = true <;>
    simp [h]

theorem mergeTarget_mem (l : List Order) (t : Order) (h : mergeTarget l = some t) :
    t ∈ l := by
  cases l with
  | nil => simp [mergeTarget] at h
  | cons d rest =>
    simp only [mergeTarget] at h
    cases hf : (d :: rest).find? (fun o => !o.printStatus) with
    | none =>
      rw [hf] at h
      simp at h
      subst h
      exact List.mem_cons_self _ _
    | some t' =>
      rw [hf] at h
      simp at h
      subst h
      exact List.mem_of_find?_eq_some hf

theorem mergeTarget_of_find (l : List Order) (d : Order) (rest : List Order)
    (t : Order) (hl : l = d :: rest)
    (hf : l.find? (fun o => !o.printStatus) = some t) : mergeTarget l = some t := by
  subst hl
  simp [mergeTarget, hf]

theorem mergeTarget_of_none (l : List Order) (d : Order) (rest : List Order)
    (hl : l = d :: rest)
    (hf : l.find? (fun o => !o.printStatus) = none) : mergeTarget l = some d := by
  subst hl
  simp [mergeTarget, hf]

theorem find_nonprinted_min (l : List Order) (t : Order)
    (h : (sortOrders l).find? (fun o => !o.printStatus) = some t) :
    t ∈ l ∧ t.printStatus = false ∧
      ∀ x ∈ l, x.printStatus = false → t.createdAt ≤ x.createdAt := by
  obtain ⟨ht, hpt, hmin⟩ := find?_min_of_pairwise _ _ t (sortOrders_pairwise l) h
  have hpt' : t.printStatus = false := by simpa using hpt
  refine ⟨(mem_sortOrders t l).mp ht, hpt', ?_⟩
  intro x hx hpx
  have hx' : x ∈ sortOrders l := (mem_sortOrders x l).mpr hx
  have := hmin x hx' (by simp [hpx])
  simp only [orderLE, decide_eq_true_eq, printKey, hpt', hpx] at this
  simpa using this

theorem exists_find_nonprinted (l : List Order)
    (h : ∃ x ∈ l, x.printStatus = false) :
    ∃ t, (sortOrders l).find? (fun o => !o.printStatus) = some t := by
  cases hf : (sortOrders l).find? (fun o => !o.printStatus) with
  | none =>
    obtain ⟨x, hx, hpx⟩ := h
    have := List.find?_eq_none.mp hf x ((mem_sortOrders x l).mpr hx)
    simp [hpx] at this
  | some t => exact ⟨t, rfl⟩

theorem find_nonprinted_none (l : List Order)
    (h : ∀ x ∈ l, x.printStatus = true) :
    (sortOrders l).find? (fun o => !o.printStatus) = none := by
  rw [List.find?_eq_none]
  intro x hx
  have := h x ((mem_sortOrders x l).mp hx)
  simp [this]

theorem moveTableCore_merge (db : DB) (inp : TableMoveInput) (t s : Order)
    (srest : List Order)
    (hsrc : srcOrdersFor db inp.restaurantId inp.oldTableId = s :: srest)
    (ht : mergeTarget (destOrdersFor db inp.restaurantId inp.newTableId) = some t)
    (hnp : t.printStatus = false) :
    moveTableCore db inp =
      satellites (mergeInto db t s inp.restaurantId inp.newTableId) inp := by
  have hdne : destOrdersFor db inp.restaurantId inp.newTableId ≠ [] := by
    intro hnil
    rw [hnil] at ht
    simp [mergeTarget] at ht
  obtain ⟨d, drest, hd⟩ := List.exists_cons_of_ne_nil hdne
  simp only [moveTableCore, hd, hsrc]
  rw [← hd, ht]
  simp [hnp]

theorem moveTableCore_reassign (db : DB) (inp : TableMoveInput) (t s : Order)
    (srest : List Order)
    (hsrc : srcOrdersFor db inp.restaurantId inp.oldTableId = s :: srest)
    (ht : mergeTarget (destOrdersFor db inp.restaurantId inp.newTableId) = some t)
    (hp : t.printStatus = true) :
    moveTableCore db inp = satellites (reassign db s.id inp.newTableId) inp := by
  have hdne : destOrdersFor db inp.restaurantId inp.newTableId ≠ [] := by
    intro hnil
    rw [hnil] at ht
    simp [mergeTarget] at ht
  obtain ⟨d, drest, hd⟩ := List.exists_cons_of_ne_nil hdne
  simp only [moveTableCore, hd, hsrc]
  rw [← hd, ht]
  simp [hp]

theorem destOrdersFor_congr (db db' : DB) (r t : String) (h : db.orders = db'.orders) :
    destOrdersFor db r t = destOrdersFor db' r t := by
  simp [destOrdersFor, h]

theorem moveKOTCore_notifications (db : DB) (i : MoveKOTInput) (ids : List Int) :
    (moveKOTCore db i ids).1.notifications =
      db.notifications.filter (fun n =>
        !(decide (n.restaurantId = i.restaurantId ∧ n.orderId = i.orderId ∧
          n.notificationId ∈ ids))) := by
  simp only [moveKOTCore]
  split <;> rfl

theorem moveKOTCore_result (db : DB) (i : MoveKOTInput) (ids : List Int) :
    (moveKOTCore db i ids).2 = KOTResult.ok := by
  simp only [moveKOTCore]
  split <;> rfl

/-- C8: a `moveKOT` call with any absent required field, or with a
`notificationIds` value that is not an array, mutates nothing and returns a
structured failure: `{success: false, error: 'Missing required fields'}` in
the direct-data shape, and a 400-coded error body in the request/response
shape. -/
theorem c8_moveKOT_validation (db : DB) (i : MoveKOTInput)
    (h : i.oldTableId = "" ∨ i.newTableId = "" ∨ i.restaurantId = "" ∨
      i.orderId = "" ∨ i.notificationIds = none) :
    moveKOT db i = (db, KOTResult.missingFields) ∧
    moveKOTExpress db i = (db, ExpressResult.response 400 "Missing required fields") := by
  have hk : moveKOT db i = (db, KOTResult.missingFields) := by
    cases hids : i.notificationIds with
    | none => simp [moveKOT, hids]
    | some ids =>
      rcases h with h | h | h | h | h
      · simp [moveKOT, hids, h]
      · simp [moveKOT, hids, h]
      · simp [moveKOT, hids, h]
      · simp [moveKOT, hids, h]
      · rw [hids] at h
        exact absurd h (by simp)
  exact ⟨hk, by simp [moveKOTExpress, hk]⟩

/-- Fixture for the C8 witness: a call whose `newTableId` is absent
(the `MoveKOTInput` fields are `oldTableId`, `newTableId`, `restaurantId`,
`orderId`, `notificationIds`). -/
def c8Input : MoveKOTInput := ⟨"T1", "", "R", "O", some [1]⟩

/-- Witness for C8 at a concrete input: `newTableId` is absent. -/
theorem c8_witness :
    (c8Input.newTableId = "" ∨ False) ∧
    moveKOT {} c8Input = ({}, KOTResult.missingFields) ∧
    moveKOTExpress {} c8Input =
      ({}, ExpressResult.response 400 "Missing required fields") := by
  refine ⟨Or.inl rfl, ?_, ?_⟩
  · exact (c8_moveKOT_validation {} _ (Or.inr (Or.inl rfl))).1
  · exact (c8_moveKOT_validation {} _ (Or.inr (Or.inl rfl))).2

/-- C3: when the supplied `notificationIds` list has exactly as many entries
as the order has active kitchen tickets, `moveKOT` delegates to `moveTable`;
the test is purely on cardinality, so the ids need not be the order's
ticket ids. -/
theorem c3_kot_count_delegation (db : DB) (i : MoveKOTInput) (ids : List Int)
    (hids : i.notificationIds = some ids)
    (ho : i.oldTableId ≠ "") (hn : i.newTableId ≠ "") (hr : i.restaurantId ≠ "")
    (hoid : i.orderId ≠ "")
    (hlen : ids.length = kotActiveCount db i.restaurantId i.orderId) :
    ∃ p, moveTable db ⟨i.oldTableId, i.newTableId, i.restaurantId, some i.orderId⟩ =
        Except.ok p ∧
      moveKOT db i = (p.1, KOTResult.tableMoved p.2) := by
  have hmt : moveTable db ⟨i.oldTableId, i.newTableId, i.restaurantId, some i.orderId⟩ =
      Except.ok (moveTableCore db ⟨i.oldTableId, i.newTableId, i.restaurantId, some i.orderId⟩) := by
    simp [moveTable, ho, hn, hr]
  refine ⟨_, hmt, ?_⟩
  simp [moveKOT, hids, ho, hn, hr, hoid, hlen, hmt]

/-- Fixture for the C3 witness: two active kitchen tickets (ids 1 and 2)
on order `O` (the `Notification` fields are `notificationId`,
`restaurantId`, `orderId`, `tableNumber`, `actionType`, `data`, `active`,
`createdAt`). -/
def c3DB : DB :=
  { notifications := [⟨1, "R", "O", "T1", "order_created", none, true, 0⟩,
      ⟨2, "R", "O", "T1", "order-updated", none, true, 1⟩] }

/-- Fixture for the C3 witness: a list of two ids matching no ticket. -/
def c3Input : MoveKOTInput := ⟨"T1", "T2", "R", "O", some [7, 8]⟩

/-- Witness for C3: a supplied list `[7, 8]` of the right length whose ids
match no ticket still delegates to `moveTable`. -/
theorem c3_witness :
    ([7, 8] : List Int).length = kotActiveCount c3DB "R" "O" ∧
    ∃ p, moveTable c3DB ⟨"T1", "T2", "R", some "O"⟩ = Except.ok p ∧
      moveKOT c3DB c3Input = (p.1, KOTResult.tableMoved p.2) := by
  refine ⟨by decide, ?_⟩
  exact c3_kot_count_delegation c3DB c3Input [7, 8] rfl (by decide) (by decide)
    (by decide) (by decide) (by decide)

/-- C10: the non-delegating `moveKOT` ticket deletion is scoped only by
restaurant, order and notification id — not by the active flag or the action
type (which do scope the full-move count) — so a supplied id naming an
inactive or differently-typed ticket of the same order is deleted too. -/
theorem c10_kot_delete_scope (db : DB) (i : MoveKOTInput) (ids : List Int)
    (n : Notification)
    (hids : i.notificationIds = some ids)
    (ho : i.oldTableId ≠ "") (hn : i.newTableId ≠ "") (hr : i.restaurantId ≠ "")
    (hoid : i.orderId ≠ "")
    (hlen : ids.length ≠ kotActiveCount db i.restaurantId i.orderId)
    (hmem : n ∈ db.notifications)
    (hnr : n.restaurantId = i.restaurantId) (hno : n.orderId = i.orderId)
    (hnid : n.notificationId ∈ ids)
    (hside : n.active = false ∨
      (n.actionType ≠ "order_created" ∧ n.actionType ≠ "order-updated")) :
    n ∉ (moveKOT db i).1.notifications := by
  have hcore : moveKOT db i = moveKOTCore db i ids := by
    simp [moveKOT, hids, ho, hn, hr, hoid, hlen]
  rw [hcore, moveKOTCore_notifications]
  intro hmem'
  have := (List.mem_filter.mp hmem').2
  simp [hnr, hno, hnid] at this

/-- Fixture for the C10 witness: one active ticket (id 1) plus an inactive
ticket (id 2) on the same order. -/
def c10DB : DB :=
  { notifications := [⟨1, "R", "O", "T1", "order_created", none, true, 0⟩,
      ⟨2, "R", "O", "T1", "order_created", none, false, 1⟩] }

/-- Fixture for the C10 witness: two supplied ids (the inactive ticket's id
and a stray one), so the length 2 differs from the active count 1 and the
call stays non-delegating. -/
def c10Input : MoveKOTInput := ⟨"T1", "T2", "R", "O", some [2, 9]⟩

/-- Witness for C10: the inactive ticket (id 2) is deleted by the
non-delegating path. -/
theorem c10_witness :
    (([2, 9] : List Int).length ≠ kotActiveCount c10DB "R" "O") ∧
    (⟨2, "R", "O", "T1", "order_created", none, false, 1⟩ : Notification) ∉
      (moveKOT c10DB c10Input).1.notifications := by
  refine ⟨by decide, ?_⟩
  exact c10_kot_delete_scope c10DB c10Input [2, 9] _ rfl (by decide) (by decide)
    (by decide) (by decide) (by decide) (by decide) rfl rfl (by decide)
    (Or.inl rfl)

theorem head?_mem {α : Type} (l : List α) (a : α) (h : l.head? = some a) : a ∈ l := by
  cases l with
  | nil => simp at h
  | cons b rest =>
    simp only [List.head?_cons] at h
    injection h with h
    subst h
    exact List.mem_cons_self _ _

theorem moveItems_run (db : DB) (i : MoveItemsInput) (o : Order)
    (hfetch : fetchSource db i = some o)
    (hval : validateItems o.items i.items = none)
    (hnf : isFullTableMove o.items i.items = false) :
    moveItems db i = Except.ok (moveItemsCore db i o) := by
  simp [moveItems, hfetch, hval, hnf]

theorem moveItemsCore_orders (db : DB) (i : MoveItemsInput) (o : Order) :
    (moveItemsCore db i o).1.orders =
      (if (buildNR o.items i.items ([], o.items)).2.isEmpty then
        db.orders.filter (fun x =>
          !(decide (x.restaurantId = i.restaurantId ∧ x.id = i.orderId)))
      else
        db.orders.map (fun x =>
          if x.id = i.orderId ∧ x.restaurantId = i.restaurantId then
            { x with items := (buildNR o.items i.items ([], o.items)).2 }
          else x)) := by
  simp only [moveItemsCore]
  split <;> rfl

theorem moveItemsCore_result (db : DB) (i : MoveItemsInput) (o : Order) :
    (moveItemsCore db i o).2 = MoveResult.itemsMoved := by
  simp only [moveItemsCore]

theorem moveKOT_run (db : DB) (i : MoveKOTInput) (ids : List Int)
    (hids : i.notificationIds = some ids)
    (ho : i.oldTableId ≠ "") (hn : i.newTableId ≠ "") (hr : i.restaurantId ≠ "")
    (hoid : i.orderId ≠ "")
    (hlen : ids.length ≠ kotActiveCount db i.restaurantId i.orderId) :
    moveKOT db i = moveKOTCore db i ids := by
  simp [moveKOT, hids, ho, hn, hr, hoid, hlen]

theorem moveKOTCore_orders_some (db : DB) (i : MoveKOTInput) (ids : List Int)
    (o : Order)
    (hhead : (db.orders.filter (fun x =>
      decide (x.restaurantId = i.restaurantId ∧ x.id = i.orderId))).head? = some o) :
    (moveKOTCore db i ids).1.orders =
      db.orders.map (fun x =>
        if x.id = o.id then
          { x with items := (db.deliveries.filter (fun d =>
              decide (d.notificationId ∈ ids))).foldl applyKOTRemoval o.items }
        else x) := by
  simp only [moveKOTCore]
  split
  · rename_i h
    have h' : (db.orders.filter (fun x =>
        decide (x.restaurantId = i.restaurantId ∧ x.id = i.orderId))).head? = none := h
    rw [hhead] at h'
    cases h'
  · rename_i oo h
    have h' : (db.orders.filter (fun x =>
        decide (x.restaurantId = i.restaurantId ∧ x.id = i.orderId))).head? = some oo := h
    rw [hhead] at h'
    injection h' with h'
    subst h'
    rfl

/-- C6: source-order deletion parity.  A non-delegating `moveItems` deletes
the source order row exactly when the reduced item map is empty, and writes
the reduced map back otherwise; a non-delegating `moveKOT` always writes the
source order row back (a map over the order list, deleting nothing), with no
condition on the item map's emptiness. -/
theorem c6_source_deletion_parity :
    (∀ (db : DB) (i : MoveItemsInput) (o : Order),
      fetchSource db i = some o →
      validateItems o.items i.items = none →
      isFullTableMove o.items i.items = false →
      moveItems db i = Except.ok (moveItemsCore db i o) ∧
      ((buildNR o.items i.items ([], o.items)).2 = [] →
        ∀ x ∈ (moveItemsCore db i o).1.orders,
          ¬(x.restaurantId = i.restaurantId ∧ x.id = i.orderId)) ∧
      ((buildNR o.items i.items ([], o.items)).2 ≠ [] →
        ∃ x ∈ (moveItemsCore db i o).1.orders,
          x.id = i.orderId ∧ x.restaurantId = i.restaurantId ∧
          x.items = (buildNR o.items i.items ([], o.items)).2)) ∧
    (∀ (db : DB) (i : MoveKOTInput) (ids : List Int) (o : Order),
      i.notificationIds = some ids →
      i.oldTableId ≠ "" → i.newTableId ≠ "" → i.restaurantId ≠ "" →
      i.orderId ≠ "" →
      ids.length ≠ kotActiveCount db i.restaurantId i.orderId →
      (db.orders.filter (fun x =>
        decide (x.restaurantId = i.restaurantId ∧ x.id = i.orderId))).head? = some o →
      (moveKOT db i).1.orders =
        db.orders.map (fun x =>
          if x.id = o.id then
            { x with items := (db.deliveries.filter (fun d =>
                decide (d.notificationId ∈ ids))).foldl applyKOTRemoval o.items }
          else x)) := by
  constructor
  · intro db i o hfetch hval hnf
    refine ⟨moveItems_run db i o hfetch hval hnf, ?_, ?_⟩
    · intro hrem x hx
      rw [moveItemsCore_orders] at hx
      rw [hrem] at hx
      simp only [List.isEmpty_nil, if_true] at hx
      have hne := (List.mem_filter.mp hx).2
      simp only [Bool.not_eq_true', decide_eq_false_iff_not] at hne
      exact hne
    · intro hrem
      rw [moveItemsCore_orders]
      have hne : (buildNR o.items i.items ([], o.items)).2.isEmpty = false := by
        cases hh : (buildNR o.items i.items ([], o.items)).2 with
        | nil => exact absurd hh hrem
        | cons a l => simp [hh]
      rw [hne]
      simp only [Bool.false_eq_true, if_false]
      have hofilter : o ∈ db.orders.filter (fun x =>
          decide (x.restaurantId = i.restaurantId ∧ x.id = i.orderId ∧
            x.tableId = i.oldTableId)) := by
        exact head?_mem _ o hfetch
      have homem : o ∈ db.orders := (List.mem_filter.mp hofilter).1
      have hofields := (List.mem_filter.mp hofilter).2
      simp only [decide_eq_true_eq] at hofields
      refine ⟨{ o with items := (buildNR o.items i.items ([], o.items)).2 }, ?_,
        hofields.2.1, hofields.1, rfl⟩
      refine List.mem_map.mpr ⟨o, homem, ?_⟩
      simp [hofields.1, hofields.2.1]
  · intro db i ids o hids ho hn hr hoid hlen hhead
    rw [moveKOT_run db i ids hids ho hn hr hoid hlen]
    exact moveKOTCore_orders_some db i ids o hhead

/-- Fixture for the C6 witness, item side: one order whose only item has a
single basic line of qty 2 (`Order` fields: `id`, `restaurantId`, `tableId`,
`items`, `instructions`, `printStatus`, `createdAt`). -/
def c6aOrder : Order :=
  ⟨"O", "R", "T1", [("A", ⟨"Item A", "", some 2, [⟨"", "", 2, none, true, 0, ""⟩]⟩)],
    "", false, 0⟩

/-- Fixture for the C6 witness, item side. -/
def c6aDB : DB := { orders := [c6aOrder] }

/-- Fixture for the C6 witness, item side: an over-request of 3 against a
total of 2, which is not a full-table move but empties the source map. -/
def c6aInput : MoveItemsInput := ⟨"R", "T1", "T2", "O", [⟨"A", 3⟩]⟩

/-- Fixture for the C6 witness, ticket side: same shape of source order. -/
def c6bOrder : Order :=
  ⟨"O", "R", "T1", [("A", ⟨"Item A", "", some 2, [⟨"", "", 2, none, true, 0, ""⟩]⟩)],
    "", false, 0⟩

/-- Fixture for the C6 witness, ticket side: two active tickets so that a
one-id call stays non-delegating, and one ledger row (notification 5)
covering the full qty 2 of item A. -/
def c6bDB : DB :=
  { orders := [c6bOrder],
    notifications := [⟨1, "R", "O", "T1", "order_created", none, true, 0⟩,
      ⟨2, "R", "O", "T1", "order-updated", none, true, 1⟩],
    deliveries := [⟨10, 5, "O", "A", ⟨"", "", 2, none, false, 0, ""⟩, false, false⟩] }

/-- Fixture for the C6 witness, ticket side. -/
def c6bInput : MoveKOTInput := ⟨"T1", "T2", "R", "O", some [5]⟩

/-- Witness for C6: the item-side call empties the source map and the order
row disappears; the ticket-side call empties the source map too, yet the
order row survives with an empty item map. -/
theorem c6_witness :
    ((buildNR c6aOrder.items c6aInput.items ([], c6aOrder.items)).2 = [] ∧
      ∀ x ∈ (moveItemsCore c6aDB c6aInput c6aOrder).1.orders,
        ¬(x.restaurantId = c6aInput.restaurantId ∧ x.id = c6aInput.orderId)) ∧
    (moveKOT c6bDB c6bInput).1.orders = [{ c6bOrder with items := [] }] := by
  constructor
  · refine ⟨by decide, ?_⟩
    exact (c6_source_deletion_parity.1 c6aDB c6aInput c6aOrder (by decide) (by decide)
      (by decide)).2.1 (by decide)
  · have h := c6_source_deletion_parity.2 c6bDB c6bInput [5] c6bOrder rfl (by decide)
      (by decide) (by decide) (by decide) (by decide) (by decide)
    rw [h]
    decide

theorem drainNotifDeliveries_mem (ds : List Delivery) (cap : Int) :
    ∀ u ∈ (drainNotifDeliveries cap ds).1,
      ∃ d ∈ ds, u.id = d.id ∧ 0 ≤ u.details.qty ∧ u.details.qty ≤ d.details.qty := by
  induction ds generalizing cap with
  | nil => simp [drainNotifDeliveries]
  | cons d rest ih =>
    intro u hu
    by_cases hcap : cap ≤ 0
    · simp [drainNotifDeliveries, hcap] at hu
    · by_cases hred : 0 < min cap d.details.qty
      · simp only [drainNotifDeliveries, hcap, if_neg, if_false, hred, if_pos,
          if_true, List.mem_cons] at hu
        rcases hu with heq | hu
        · subst heq
          refine ⟨d, List.mem_cons_self _ _, rfl, ?_, ?_⟩
          · simp only
            omega
          · simp only
            omega
        · obtain ⟨d', hd', h1, h2, h3⟩ := ih (cap - min cap d.details.qty) u hu
          exact ⟨d', List.mem_cons_of_mem _ hd', h1, h2, h3⟩
      · simp only [drainNotifDeliveries, hcap, if_neg, if_false, hred] at hu
        obtain ⟨d', hd', h1, h2, h3⟩ := ih cap u hu
        exact ⟨d', List.mem_cons_of_mem _ hd', h1, h2, h3⟩

theorem drainNotifDeliveries_total (ds : List Delivery) (cap : Int) :
    0 ≤ (drainNotifDeliveries cap ds).2 ∧
      (drainNotifDeliveries cap ds).2 ≤ max 0 cap := by
  induction ds generalizing cap with
  | nil => simp [drainNotifDeliveries]
  | cons d rest ih =>
    by_cases hcap : cap ≤ 0
    · simp [drainNotifDeliveries, hcap]
    · by_cases hred : 0 < min cap d.details.qty
      · simp only [drainNotifDeliveries, hcap, if_neg, if_false, hred, if_pos]
        have := ih (cap - min cap d.details.qty)
        simp only at this ⊢
        omega
      · simp only [drainNotifDeliveries, hcap, if_neg, if_false, hred]
        exact ih cap

theorem drainStep_bounds (remaining : Int) (nds : List Delivery) :
    0 ≤ (drainStep remaining nds).2 ∧
      (drainStep remaining nds).2 ≤ max 0 (min remaining (sumDelivQty nds)) := by
  by_cases hemp : nds.isEmpty
  · simp [drainStep, hemp]
  · by_cases hcap : min remaining (sumDelivQty nds) ≤ 0
    · simp [drainStep, hemp, hcap]
    · simp only [drainStep, hemp, Bool.false_eq_true, if_false, hcap, if_neg,
        not_false_iff]
      have := drainNotifDeliveries_total nds (min remaining (sumDelivQty nds))
      omega

theorem drainStep_mem (remaining : Int) (nds : List Delivery) :
    ∀ u ∈ (drainStep remaining nds).1,
      ∃ d ∈ nds, u.id = d.id ∧ 0 ≤ u.details.qty ∧ u.details.qty ≤ d.details.qty := by
  intro u hu
  by_cases hemp : nds.isEmpty
  · simp [drainStep, hemp] at hu
  · by_cases hcap : min remaining (sumDelivQty nds) ≤ 0
    · simp [drainStep, hemp, hcap] at hu
    · simp only [drainStep, hemp, Bool.false_eq_true, if_false, hcap, if_neg,
        not_false_iff] at hu
      exact drainNotifDeliveries_mem nds _ u hu

theorem drainAllNotifs_mem (itemId : String) (ds : List Delivery)
    (notifs : List Notification) (remaining : Int) :
    ∀ u ∈ (drainAllNotifs itemId ds notifs remaining).1,
      ∃ d ∈ ds, u.id = d.id ∧ 0 ≤ u.details.qty ∧ u.details.qty ≤ d.details.qty := by
  induction notifs generalizing remaining with
  | nil => simp [drainAllNotifs]
  | cons n rest ih =>
    intro u hu
    simp only [drainAllNotifs, List.mem_append] at hu
    rcases hu with hu | hu
    · obtain ⟨d, hd, h1, h2, h3⟩ := drainStep_mem _ _ u hu
      exact ⟨d, (List.mem_filter.mp hd).1, h1, h2, h3⟩
    · exact ih _ u hu

theorem computeDeliveryUpdates_mem (notifs : List Notification)
    (ds : List Delivery) (reqs : List ItemReq) :
    ∀ u ∈ computeDeliveryUpdates notifs ds reqs,
      ∃ d ∈ ds, u.id = d.id ∧ 0 ≤ u.details.qty ∧ u.details.qty ≤ d.details.qty := by
  induction reqs with
  | nil => simp [computeDeliveryUpdates]
  | cons r rest ih =>
    intro u hu
    simp only [computeDeliveryUpdates, List.mem_append] at hu
    rcases hu with hu | hu
    · exact drainAllNotifs_mem _ _ _ _ u hu
    · exact ih u hu

/-- C7: the delivery-ledger drain of `moveItems` never over-drains.  Every
queued update targets a fetched (undelivered, uncancelled) ledger row and
stores a qty that is non-negative and no greater than the row's current qty;
and the total drained under one notification is non-negative and capped by
`min(remainingQtyToMove, outstanding sum of that notification's rows)`. -/
theorem c7_ledger_drain (notifs : List Notification) (ds : List Delivery)
    (reqs : List ItemReq) :
    (∀ u ∈ computeDeliveryUpdates notifs ds reqs,
      ∃ d ∈ ds, u.id = d.id ∧ 0 ≤ u.details.qty ∧ u.details.qty ≤ d.details.qty) ∧
    (∀ remaining nds, 0 ≤ (drainStep remaining nds).2 ∧
      (drainStep remaining nds).2 ≤ max 0 (min remaining (sumDelivQty nds))) :=
  ⟨computeDeliveryUpdates_mem notifs ds reqs, fun remaining nds =>
    drainStep_bounds remaining nds⟩

/-- Fixture for the C7 witness: one active ticket. -/
def c7Notifs : List Notification := [⟨1, "R", "O", "T1", "order_created", none, true, 0⟩]

/-- Fixture for the C7 witness: one outstanding ledger row of qty 3 under
notification 1. -/
def c7Ds : List Delivery := [⟨10, 1, "O", "A", ⟨"", "", 3, none, false, 0, ""⟩, false, false⟩]

/-- Fixture for the C7 witness: a request of 5 against the outstanding 3. -/
def c7Reqs : List ItemReq := [⟨"A", 5⟩]

/-- Witness for C7: requesting 5 against one row of qty 3 drains exactly 3,
leaving the stored qty at 0 (never negative). -/
theorem c7_witness :
    (⟨10, ⟨"", "", 0, none, false, 0, ""⟩⟩ : DeliveryUpdate) ∈
      computeDeliveryUpdates c7Notifs c7Ds c7Reqs ∧
    (∃ d ∈ c7Ds, (⟨10, ⟨"", "", 0, none, false, 0, ""⟩⟩ : DeliveryUpdate).id = d.id ∧
      0 ≤ (⟨10, ⟨"", "", 0, none, false, 0, ""⟩⟩ : DeliveryUpdate).details.qty ∧
      (⟨10, ⟨"", "", 0, none, false, 0, ""⟩⟩ : DeliveryUpdate).details.qty ≤
        d.details.qty) ∧
    (0 ≤ (drainStep 5 c7Ds).2 ∧
      (drainStep 5 c7Ds).2 ≤ max 0 (min 5 (sumDelivQty c7Ds))) :=
  ⟨by decide, (c7_ledger_drain c7Notifs c7Ds c7Reqs).1 _ (by decide),
    (c7_ledger_drain c7Notifs c7Ds c7Reqs).2 5 c7Ds⟩

theorem validateItems_none (m : ItemMap) (reqs : List ItemReq)
    (h : ∀ r ∈ reqs, (∃ e, lookupItem m r.itemId = some e) ∧ 1 ≤ r.quantity) :
    validateItems m reqs = none := by
  induction reqs with
  | nil => rfl
  | cons r rest ih =>
    obtain ⟨⟨e, he⟩, hq⟩ := h r (List.mem_cons_self _ _)
    have hlt : ¬(r.quantity < 1) := by omega
    simp only [validateItems, he, hlt, if_false, if_neg, not_false_iff]
    exact ih (fun r' hr' => h r' (List.mem_cons_of_mem _ hr'))

theorem isFullTableMove_true (m : ItemMap) (reqs : List ItemReq)
    (h1 : ∀ kv ∈ m, ∃ r ∈ reqs, r.itemId = kv.1)
    (h2 : ∀ r ∈ reqs, ∃ e, lookupItem m r.itemId = some e ∧ r.quantity = totalQtyOf e) :
    isFullTableMove m reqs = true := by
  simp only [isFullTableMove, Bool.and_eq_true, List.all_eq_true, List.any_eq_true]
  constructor
  · intro kv hkv
    obtain ⟨r, hr, hid⟩ := h1 kv hkv
    exact ⟨r, hr, by simp [hid]⟩
  · intro r hr
    obtain ⟨e, he, hq⟩ := h2 r hr
    rw [he]
    simp [hq]

/-- C2: a `moveItems` call requesting exactly the source order's item-id set
with, for each item, exactly that item's total quantity (and quantities
respecting the declared `quantity >= 1` input contract), delegates the whole
operation to `moveTable` with the same arguments; the resulting state and
return value are `moveTable`'s own, wrapped in the `moveItems` result
constructor. -/
theorem c2_full_move_delegation (db : DB) (i : MoveItemsInput) (o : Order)
    (hfetch : fetchSource db i = some o)
    (hcover : ∀ kv ∈ o.items, ∃ r ∈ i.items, r.itemId = kv.1)
    (hexact : ∀ r ∈ i.items, ∃ e, lookupItem o.items r.itemId = some e ∧
      r.quantity = totalQtyOf e)
    (hpos : ∀ r ∈ i.items, 1 ≤ r.quantity) :
    moveItems db i =
      (match moveTable db ⟨i.oldTableId, i.newTableId, i.restaurantId, some i.orderId⟩ with
        | Except.ok p => Except.ok (p.1, MoveResult.tableMoved p.2)
        | Except.error e => Except.error e) := by
  have hval : validateItems o.items i.items = none :=
    validateItems_none o.items i.items (fun r hr =>
      ⟨(hexact r hr).imp (fun e he => he.1), hpos r hr⟩)
  have hfull : isFullTableMove o.items i.items = true :=
    isFullTableMove_true o.items i.items hcover hexact
  simp only [moveItems, hfetch, hval, hfull, if_true]

/-- Fixture for the C2 witness: the source order with items A (total 2) and
B (total 3, over two lines). -/
def c2Order : Order :=
  ⟨"O", "R", "T1",
    [("A", ⟨"Item A", "", some 2, [⟨"", "", 2, none, true, 0, ""⟩]⟩),
     ("B", ⟨"Item B", "", some 3, [⟨"", "", 1, none, true, 0, ""⟩, ⟨"v", "", 2, none, false, 0, ""⟩]⟩)],
    "", false, 0⟩

/-- Fixture for the C2 witness. -/
def c2DB : DB := { orders := [c2Order] }

/-- Fixture for the C2 witness: both items requested at their exact totals. -/
def c2Input : MoveItemsInput := ⟨"R", "T1", "T2", "O", [⟨"A", 2⟩, ⟨"B", 3⟩]⟩

/-- Witness for C2: the 100% request is executed as a `moveTable`. -/
theorem c2_witness :
    fetchSource c2DB c2Input = some c2Order ∧
    moveItems c2DB c2Input =
      (match moveTable c2DB ⟨"T1", "T2", "R", some "O"⟩ with
        | Except.ok p => Except.ok (p.1, MoveResult.tableMoved p.2)
        | Except.error e => Except.error e) := by
  refine ⟨by decide, ?_⟩
  exact c2_full_move_delegation c2DB c2Input c2Order (by decide) (by decide)
    (by decide) (by decide)

theorem buildNR_lookup_of_not_mem (oldItems : ItemMap) (reqs : List ItemReq)
    (acc : ItemMap × ItemMap) (k : String)
    (hk : ∀ r ∈ reqs, r.itemId ≠ k) :
    lookupItem (buildNR oldItems reqs acc).1 k = lookupItem acc.1 k ∧
    lookupItem (buildNR oldItems reqs acc).2 k = lookupItem acc.2 k := by
  induction reqs generalizing acc with
  | nil => exact ⟨rfl, rfl⟩
  | cons r rest ih =>
    obtain ⟨newT, rem⟩ := acc
    have hrk : r.itemId ≠ k := hk r (List.mem_cons_self _ _)
    have hrest : ∀ r' ∈ rest, r'.itemId ≠ k :=
      fun r' h => hk r' (List.mem_cons_of_mem _ h)
    simp only [buildNR]
    cases hlook : lookupItem oldItems r.itemId with
    | none => exact ih _ hrest
    | some item =>
      have hrec := ih (setItem newT r.itemId (destSnapshot item r.quantity),
        if totalQtyOf item ≤ r.quantity then eraseItem rem r.itemId
        else setItem rem r.itemId (reduceLines item r.quantity)) hrest
      refine ⟨?_, ?_⟩
      · rw [hrec.1]
        exact lookupItem_setItem_ne newT r.itemId k _ hrk
      · rw [hrec.2]
        by_cases hq : totalQtyOf item ≤ r.quantity
        · simp only [hq, if_true]
          exact lookupItem_eraseItem_ne rem r.itemId k hrk
        · simp only [hq, if_false, if_neg, not_false_iff]
          exact lookupItem_setItem_ne rem r.itemId k _ hrk

theorem buildNR_spec (oldItems : ItemMap) (reqs : List ItemReq)
    (hnodup : (reqs.map ItemReq.itemId).Nodup) (r : ItemReq) (e : ItemEntry)
    (hr : r ∈ reqs) (he : lookupItem oldItems r.itemId = some e) :
    ∀ acc : ItemMap × ItemMap,
      lookupItem (buildNR oldItems reqs acc).1 r.itemId =
        some (destSnapshot e r.quantity) ∧
      lookupItem (buildNR oldItems reqs acc).2 r.itemId =
        (if totalQtyOf e ≤ r.quantity then none
          else some (reduceLines e r.quantity)) := by
  induction reqs with
  | nil => cases hr
  | cons r0 rest ih =>
    intro acc
    obtain ⟨newT, rem⟩ := acc
    simp only [List.map_cons, List.nodup_cons] at hnodup
    rcases List.mem_cons.mp hr with heq | hmem
    · subst heq
      simp only [buildNR, he]
      have hnotin : ∀ r' ∈ rest, r'.itemId ≠ r.itemId := by
        intro r' h hcontra
        exact hnodup.1 (hcontra ▸ List.mem_map_of_mem ItemReq.itemId h)
      have hrec := buildNR_lookup_of_not_mem oldItems rest
        (setItem newT r.itemId (destSnapshot e r.quantity),
          if totalQtyOf e ≤ r.quantity then eraseItem rem r.itemId
          else setItem rem r.itemId (reduceLines e r.quantity)) r.itemId hnotin
      refine ⟨?_, ?_⟩
      · rw [hrec.1]
        exact lookupItem_setItem_self _ _ _
      · rw [hrec.2]
        by_cases hq : totalQtyOf e ≤ r.quantity
        · simp only [hq, if_true]
          exact lookupItem_eraseItem_self _ _
        · simp only [hq, if_false, if_neg, not_false_iff]
          exact lookupItem_setItem_self _ _ _
    · simp only [buildNR]
      cases hlook : lookupItem oldItems r0.itemId with
      | none => exact ih hnodup.2 hmem _
      | some item => exact ih hnodup.2 hmem _

/-- Fixture for C1: the spec's example item with two lines of qty 2 and 3
(total 5). -/
def c1Entry : ItemEntry :=
  ⟨"Item A", "", some 5, [⟨"", "", 2, none, true, 0, ""⟩, ⟨"x", "", 3, none, false, 0, ""⟩]⟩

/-- Fixture for C1: the source order holding only that item. -/
def c1Order : Order := ⟨"o1", "r", "T1", [("A", c1Entry)], "", false, 0⟩

/-- Fixture for C1. -/
def c1DB : DB := { orders := [c1Order] }

/-- Fixture for C1: the spec's example request of quantity 4. -/
def c1Input : MoveItemsInput := ⟨"r", "T1", "T2", "o1", [⟨"A", 4⟩]⟩

/-- Counterexample for C1 as stated: after requesting 4 of the 2+3 item, the
source order still holds the item entry (with an empty customization-line
list and a stale `totalQty`); the entry is NOT removed, because removal
happens only on the `requestedQty >= totalQty` branch, which clipping to
zero on the other branch never triggers. -/
theorem c1_counterexample :
    (match moveItems c1DB c1Input with
      | Except.ok p =>
        (p.1.orders.find? (fun x => decide (x.id = "o1"))).map
          (fun x => lookupItem x.items "A")
      | Except.error _ => none)
    = some (some ⟨"Item A", "", some 5, []⟩) := by decide

/-- C1 amended: for a non-full `moveItems` call, each requested item's
destination snapshot copies the source customization lines with every qty
overwritten to the requested quantity; on the source side every line is
reduced by the requested quantity clipped at zero and non-positive lines are
dropped; the request is never rejected for exceeding a line's quantity; but
the source item entry is removed exactly when the requested quantity is at
least the item's total — when the request is below the total, the entry is
kept (with the clip-filtered line list, which may be empty), not removed. -/
theorem c1_item_split (db : DB) (i : MoveItemsInput) (o : Order)
    (hfetch : fetchSource db i = some o)
    (hnodup : (i.items.map ItemReq.itemId).Nodup)
    (hvalid : ∀ r ∈ i.items, ∃ e, lookupItem o.items r.itemId = some e ∧ 1 ≤ r.quantity)
    (hnotfull : isFullTableMove o.items i.items = false) :
    validateItems o.items i.items = none ∧
    moveItems db i = Except.ok (moveItemsCore db i o) ∧
    ∀ r ∈ i.items, ∀ e, lookupItem o.items r.itemId = some e →
      lookupItem (buildNR o.items i.items ([], o.items)).1 r.itemId =
        some (destSnapshot e r.quantity) ∧
      (∀ c ∈ (destSnapshot e r.quantity).customizations, c.qty = r.quantity) ∧
      (totalQtyOf e ≤ r.quantity →
        lookupItem (buildNR o.items i.items ([], o.items)).2 r.itemId = none) ∧
      (r.quantity < totalQtyOf e →
        lookupItem (buildNR o.items i.items ([], o.items)).2 r.itemId =
          some (reduceLines e r.quantity)) := by
  have hval : validateItems o.items i.items = none :=
    validateItems_none o.items i.items (fun r hr =>
      ⟨(hvalid r hr).imp (fun e he => he.1), (hvalid r hr).choose_spec.2⟩)
  refine ⟨hval, moveItems_run db i o hfetch hval hnotfull, ?_⟩
  intro r hr e he
  have hspec := buildNR_spec o.items i.items hnodup r e hr he ([], o.items)
  refine ⟨hspec.1, ?_, ?_, ?_⟩
  · intro c hc
    simp only [destSnapshot, List.mem_map] at hc
    obtain ⟨c', _, hc'⟩ := hc
    rw [← hc']
  · intro hq
    rw [hspec.2]
    simp [hq]
  · intro hq
    rw [hspec.2]
    have : ¬(totalQtyOf e ≤ r.quantity) := by omega
    simp [this]

/-- Witness for the amended C1 at the spec's own example: destination lines
become qty 4 and 4; the source entry survives with an empty line list. -/
theorem c1_item_split_witness :
    isFullTableMove c1Order.items c1Input.items = false ∧
    (validateItems c1Order.items c1Input.items = none ∧
     moveItems c1DB c1Input = Except.ok (moveItemsCore c1DB c1Input c1Order) ∧
     ∀ r ∈ c1Input.items, ∀ e, lookupItem c1Order.items r.itemId = some e →
       lookupItem (buildNR c1Order.items c1Input.items ([], c1Order.items)).1 r.itemId =
         some (destSnapshot e r.quantity) ∧
       (∀ c ∈ (destSnapshot e r.quantity).customizations, c.qty = r.quantity) ∧
       (totalQtyOf e ≤ r.quantity →
         lookupItem (buildNR c1Order.items c1Input.items ([], c1Order.items)).2 r.itemId = none) ∧
       (r.quantity < totalQtyOf e →
         lookupItem (buildNR c1Order.items c1Input.items ([], c1Order.items)).2 r.itemId =
           some (reduceLines e r.quantity))) ∧
    (reduceLines c1Entry 4).customizations = [] ∧
    (destSnapshot c1Entry 4).customizations.map (fun c => c.qty) = [4, 4] := by
  refine ⟨by decide, ?_, by decide, by decide⟩
  exact c1_item_split c1DB c1Input c1Order (by decide) (by decide) (by decide)
    (by decide)

theorem mergeInto_orders (db : DB) (t s : Order) (rid ntid : String) :
    (mergeInto db t s rid ntid).orders =
      (db.orders.map (fun x =>
        if x.id = t.id then
          { x with items := mergeItems t.items s.items,
                   instructions := joinNonEmpty "\n" [t.instructions, s.instructions] }
        else x)).filter (fun x => !(x.id = s.id)) := rfl

theorem mergeInto_notifications (db : DB) (t s : Order) (rid ntid : String) :
    (mergeInto db t s rid ntid).notifications =
      db.notifications.map (fun n =>
        if n.restaurantId = rid ∧ n.orderId = s.id ∧ n.active then
          { n with orderId := t.id, tableNumber := ntid }
        else n) := rfl

theorem mergeInto_deliveries (db : DB) (t s : Order) (rid ntid : String) :
    (mergeInto db t s rid ntid).deliveries =
      db.deliveries.map (fun d =>
        if d.orderId = s.id then { d with orderId := t.id } else d) := rfl

/-- C9: `moveTable` accepts `oldTableId = newTableId`; with a single
non-printed order on that table the merge branch merges the order with
itself and then deletes that same row, leaving the table with no order at
all. -/
theorem c9_self_move (db : DB) (r T : String) (oid : Option String) (o : Order)
    (hr : r ≠ "") (hT : T ≠ "")
    (hfilter : db.orders.filter (fun x =>
      decide (x.restaurantId = r ∧ x.tableId = T)) = [o])
    (hp : o.printStatus = false) :
    ∃ p, moveTable db ⟨T, T, r, oid⟩ = Except.ok p ∧
      p.1.orders.filter (fun x =>
        decide (x.restaurantId = r ∧ x.tableId = T)) = [] ∧
      ∀ x ∈ p.1.orders, x.id ≠ o.id := by
  have hdest : destOrdersFor db r T = [o] := by
    unfold destOrdersFor
    rw [hfilter]
    rfl
  have hsrc : srcOrdersFor db r T = [o] := by
    unfold srcOrdersFor
    exact hfilter
  have ht : mergeTarget (destOrdersFor db r T) = some o := by
    rw [hdest]
    simp [mergeTarget, List.find?, hp]
  have hcore : moveTableCore db ⟨T, T, r, oid⟩ =
      satellites (mergeInto db o o r T) ⟨T, T, r, oid⟩ :=
    moveTableCore_merge db ⟨T, T, r, oid⟩ o o [] hsrc ht hp
  have hok : moveTable db ⟨T, T, r, oid⟩ =
      Except.ok (moveTableCore db ⟨T, T, r, oid⟩) := by
    simp [moveTable, hr, hT]
  refine ⟨moveTableCore db ⟨T, T, r, oid⟩, hok, ?_, ?_⟩
  · rw [hcore, satellites_orders, mergeInto_orders]
    rw [List.filter_eq_nil_iff]
    intro x hx
    have hxid : (!(x.id = o.id)) = true := (List.mem_filter.mp hx).2
    simp only [Bool.not_eq_true', decide_eq_false_iff_not] at hxid
    have hxmap := (List.mem_filter.mp hx).1
    obtain ⟨y, hy, hxy⟩ := List.mem_map.mp hxmap
    intro hpred
    simp only [decide_eq_true_eq] at hpred
    by_cases hyid : y.id = o.id
    · rw [if_pos hyid] at hxy
      apply hxid
      rw [← hxy]
      exact hyid
    · rw [if_neg hyid] at hxy
      subst hxy
      have : y ∈ db.orders.filter (fun x =>
          decide (x.restaurantId = r ∧ x.tableId = T)) :=
        List.mem_filter.mpr ⟨hy, by simp [hpred.1, hpred.2]⟩
      rw [hfilter] at this
      have : y = o := by simpa using this
      exact hyid (by rw [this])
  · rw [hcore, satellites_orders, mergeInto_orders]
    intro x hx
    have hxid := (List.mem_filter.mp hx).2
    simp only [Bool.not_eq_true', decide_eq_false_iff_not] at hxid
    exact hxid

/-- Fixture for the C9 witness: one non-printed order on table T. -/
def c9Order : Order :=
  ⟨"O", "R", "T", [("A", ⟨"Item A", "", some 1, [⟨"", "", 1, none, true, 0, ""⟩]⟩)],
    "note", false, 0⟩

/-- Fixture for the C9 witness. -/
def c9DB : DB := { orders := [c9Order] }

/-- Witness for C9: a self-move of table T deletes the only order. -/
theorem c9_witness :
    c9DB.orders.filter (fun x =>
      decide (x.restaurantId = "R" ∧ x.tableId = "T")) = [c9Order] ∧
    ∃ p, moveTable c9DB ⟨"T", "T", "R", some "O"⟩ = Except.ok p ∧
      p.1.orders.filter (fun x =>
        decide (x.restaurantId = "R" ∧ x.tableId = "T")) = [] ∧
      ∀ x ∈ p.1.orders, x.id ≠ c9Order.id := by
  refine ⟨by decide, ?_⟩
  exact c9_self_move c9DB "R" "T" (some "O") c9Order (by decide) (by decide)
    (by decide) (by decide)

/-- C4: when both tables hold orders and the chosen destination target is not
printed, `moveTable` merges: the destination order receives the union item
map (items on both sides keep the concatenation of both customization-line
lists) and the newline-joined non-empty instructions; every active ticket
and every delivery record of the source order is repointed to the
destination order's id; and the source order row is deleted. -/
theorem c4_merge_semantics (db : DB) (inp : TableMoveInput) (t s : Order)
    (srest : List Order)
    (hvo : inp.oldTableId ≠ "") (hvn : inp.newTableId ≠ "") (hvr : inp.restaurantId ≠ "")
    (hsrc : srcOrdersFor db inp.restaurantId inp.oldTableId = s :: srest)
    (ht : mergeTarget (destOrdersFor db inp.restaurantId inp.newTableId) = some t)
    (hnp : t.printStatus = false)
    (hts : t.id ≠ s.id)
    (hnodup : (s.items.map Prod.fst).Nodup) :
    ∃ p, moveTable db inp = Except.ok p ∧
      (∃ o' ∈ p.1.orders, o'.id = t.id ∧
        o'.items = mergeItems t.items s.items ∧
        o'.instructions = joinNonEmpty "\n" [t.instructions, s.instructions]) ∧
      (∀ k et es, lookupItem t.items k = some et → lookupItem s.items k = some es →
        lookupItem (mergeItems t.items s.items) k =
          some { et with customizations := et.customizations ++ es.customizations }) ∧
      (∀ n ∈ db.notifications, n.restaurantId = inp.restaurantId → n.orderId = s.id →
        n.active = true →
        ∃ n' ∈ p.1.notifications,
          n'.notificationId = n.notificationId ∧ n'.orderId = t.id) ∧
      (∀ d ∈ db.deliveries, d.orderId = s.id →
        ∃ d' ∈ p.1.deliveries, d'.id = d.id ∧ d'.orderId = t.id) ∧
      (∀ x ∈ p.1.orders, x.id ≠ s.id) := by
  have hcore : moveTableCore db inp =
      satellites (mergeInto db t s inp.restaurantId inp.newTableId) inp :=
    moveTableCore_merge db inp t s srest hsrc ht hnp
  have hok : moveTable db inp = Except.ok (moveTableCore db inp) := by
    simp [moveTable, hvo, hvn, hvr]
  have htmem : t ∈ db.orders := by
    have h1 := mergeTarget_mem _ t ht
    unfold destOrdersFor at h1
    rw [mem_sortOrders] at h1
    exact (List.mem_filter.mp h1).1
  refine ⟨moveTableCore db inp, hok, ?_, ?_, ?_, ?_, ?_⟩
  · rw [hcore, satellites_orders, mergeInto_orders]
    refine ⟨{ t with items := mergeItems t.items s.items, instructions := joinNonEmpty "\n" [t.instructions, s.instructions] }, ?_, rfl, rfl, rfl⟩
    refine List.mem_filter.mpr ⟨?_, by simp [hts]⟩
    exact List.mem_map.mpr ⟨t, htmem, by simp⟩
  · intro k et es het hes
    rw [lookupItem_mergeItems t.items s.items k hnodup, het, hes]
  · intro n hn hnr hno hna
    rw [hcore]
    have hmem1 : ({ n with orderId := t.id, tableNumber := inp.newTableId } :
        Notification) ∈ (mergeInto db t s inp.restaurantId inp.newTableId).notifications := by
      rw [mergeInto_notifications]
      refine List.mem_map.mpr ⟨n, hn, ?_⟩
      rw [if_pos ⟨hnr, hno, hna⟩]
    obtain ⟨n', hn', h1, h2⟩ := satellites_notifications_mem
      (mergeInto db t s inp.restaurantId inp.newTableId) inp _ hmem1
    exact ⟨n', hn', h1, h2⟩
  · intro d hd hdo
    rw [hcore, satellites_deliveries, mergeInto_deliveries]
    refine ⟨{ d with orderId := t.id }, ?_, rfl, rfl⟩
    refine List.mem_map.mpr ⟨d, hd, ?_⟩
    rw [if_pos hdo]
  · intro x hx
    rw [hcore, satellites_orders, mergeInto_orders] at hx
    have hxid := (List.mem_filter.mp hx).2
    simp only [Bool.not_eq_true', decide_eq_false_iff_not] at hxid
    exact hxid

/-- Fixture for the C4 witness: the non-printed destination order on T2. -/
def c4t : Order :=
  ⟨"D", "R", "T2", [("A", ⟨"Item A", "", some 1, [⟨"", "", 1, none, true, 0, ""⟩]⟩)],
    "di", false, 0⟩

/-- Fixture for the C4 witness: the source order on T1 sharing item A. -/
def c4s : Order :=
  ⟨"S", "R", "T1", [("A", ⟨"Item A", "", some 2, [⟨"v", "", 2, none, true, 0, ""⟩]⟩), ("B", ⟨"Item B", "", some 1, [⟨"", "", 1, none, true, 0, ""⟩]⟩)],
    "si", false, 1⟩

/-- Fixture for the C4 witness: both tables hold orders; one active ticket
and one delivery row hang off the source order. -/
def c4DB : DB :=
  { orders := [c4t, c4s],
    notifications := [⟨1, "R", "S", "T1", "order_created", none, true, 0⟩],
    deliveries := [⟨7, 1, "S", "A", ⟨"v", "", 2, none, false, 0, ""⟩, false, false⟩] }

/-- Fixture for the C4 witness. -/
def c4Input : TableMoveInput := ⟨"T1", "T2", "R", some "S"⟩

/-- Witness for C4 at a concrete merge. -/
theorem c4_witness :
    mergeTarget (destOrdersFor c4DB "R" "T2") = some c4t ∧
    (∃ p, moveTable c4DB c4Input = Except.ok p ∧
      (∃ o' ∈ p.1.orders, o'.id = "D" ∧
        o'.items = mergeItems c4t.items c4s.items ∧
        o'.instructions = joinNonEmpty "\n" [c4t.instructions, c4s.instructions]) ∧
      (∀ k et es, lookupItem c4t.items k = some et →
        lookupItem c4s.items k = some es →
        lookupItem (mergeItems c4t.items c4s.items) k =
          some { et with customizations := et.customizations ++ es.customizations }) ∧
      (∀ n ∈ c4DB.notifications, n.restaurantId = "R" → n.orderId = "S" →
        n.active = true →
        ∃ n' ∈ p.1.notifications,
          n'.notificationId = n.notificationId ∧ n'.orderId = "D") ∧
      (∀ d ∈ c4DB.deliveries, d.orderId = "S" →
        ∃ d' ∈ p.1.deliveries, d'.id = d.id ∧ d'.orderId = "D") ∧
      (∀ x ∈ p.1.orders, x.id ≠ "S")) := by
  refine ⟨by decide, ?_⟩
  exact c4_merge_semantics c4DB c4Input c4t c4s [] (by decide) (by decide)
    (by decide) (by decide) (by decide) (by decide) (by decide) (by decide)

theorem reassign_orders (db : DB) (sid ntid : String) :
    (reassign db sid ntid).orders =
      db.orders.map (fun x => if x.id = sid then { x with tableId := ntid } else x) := rfl

theorem filter_map_id_of (l : List Order) (f : Order → Order) (p : Order → Bool)
    (hid : ∀ x ∈ l, p x = true → f x = x) (hpf : ∀ x, p (f x) = p x) :
    (l.map f).filter p = l.filter p := by
  induction l with
  | nil => rfl
  | cons a l ih =>
    have ih' := ih (fun x hx hpx => hid x (List.mem_cons_of_mem _ hx) hpx)
    by_cases hpa : p a = true
    · have hfa : f a = a := hid a (List.mem_cons_self _ _) hpa
      simp only [List.map_cons, List.filter_cons, hpf a, hpa, if_true, hfa, ih']
    · have hpa' : p a = false := by
        cases hq : p a
        · rfl
        · exact absurd hq hpa
      simp only [List.map_cons, List.filter_cons, hpf a, hpa', Bool.false_eq_true,
        if_false, ih']

theorem filter_filter_of (l : List Order) (p q : Order → Bool)
    (h : ∀ x ∈ l, p x = true → q x = true) :
    (l.filter q).filter p = l.filter p := by
  induction l with
  | nil => rfl
  | cons a l ih =>
    have ih' := ih (fun x hx hpx => h x (List.mem_cons_of_mem _ hx) hpx)
    by_cases hpa : p a = true
    · have hqa : q a = true := h a (List.mem_cons_self _ _) hpa
      simp only [List.filter_cons, hqa, if_true, hpa, ih']
    · have hpa' : p a = false := by
        cases hq : p a
        · rfl
        · exact absurd hq hpa
      by_cases hqa : q a = true
      · simp only [List.filter_cons, hqa, if_true, hpa', Bool.false_eq_true, if_false, ih']
      · have hqa' : q a = false := by
          cases hq : q a
          · rfl
          · exact absurd hq hqa
        simp only [List.filter_cons, hqa', Bool.false_eq_true, if_false, hpa', ih']

/-- The destination-order result set that `moveItems` reads after persisting
the source side, spelled out on the original state. -/
def miDestRows (db : DB) (i : MoveItemsInput) (o : Order) : List Order :=
  if (buildNR o.items i.items ([], o.items)).2.isEmpty then
    sortOrders ((db.orders.filter (fun x =>
        !(decide (x.restaurantId = i.restaurantId ∧ x.id = i.orderId)))).filter
      (fun x => decide (x.restaurantId = i.restaurantId ∧ x.tableId = i.newTableId)))
  else
    sortOrders ((db.orders.map (fun x =>
        if x.id = i.orderId ∧ x.restaurantId = i.restaurantId then
          { x with items := (buildNR o.items i.items ([], o.items)).2 }
        else x)).filter
      (fun x => decide (x.restaurantId = i.restaurantId ∧ x.tableId = i.newTableId)))

theorem moveItemsCore_upsertCalls (db : DB) (i : MoveItemsInput) (o : Order) :
    (moveItemsCore db i o).1.upsertCalls = db.upsertCalls ++
      [{ restaurantId := i.restaurantId, tableId := i.newTableId,
         items := (buildNR o.items i.items ([], o.items)).1,
         orderType := "captain", orderId := none,
         forceNewOrder := !(miDestRows db i o).isEmpty &&
           ((miDestRows db i o).find? (fun x => !x.printStatus)).isNone }] := by
  simp only [moveItemsCore, miDestRows]
  split <;> rfl

theorem miDestRows_eq (db : DB) (i : MoveItemsInput) (o : Order)
    (hids : ∀ x ∈ db.orders, x.restaurantId = i.restaurantId →
      x.tableId = i.newTableId → x.id ≠ i.orderId) :
    miDestRows db i o = destOrdersFor db i.restaurantId i.newTableId := by
  unfold miDestRows destOrdersFor
  split
  · rw [filter_filter_of db.orders
      (fun x => decide (x.restaurantId = i.restaurantId ∧ x.tableId = i.newTableId))
      (fun x => !(decide (x.restaurantId = i.restaurantId ∧ x.id = i.orderId)))]
    intro x hx hpx
    simp only [decide_eq_true_eq] at hpx
    simp [hids x hx hpx.1 hpx.2]
  · rw [filter_map_id_of db.orders _
      (fun x => decide (x.restaurantId = i.restaurantId ∧ x.tableId = i.newTableId))]
    · intro x hx hpx
      simp only [decide_eq_true_eq] at hpx
      rw [if_neg]
      intro hc
      exact hids x hx hpx.1 hpx.2 hc.1
    · intro x
      by_cases hc : x.id = i.orderId ∧ x.restaurantId = i.restaurantId
      · simp [hc]
      · simp [hc]

/-- The upsert request body built by the non-delegating `moveKOT`, spelled
out on the original state. -/
def kotCall (db : DB) (i : MoveKOTInput) (ids : List Int) : UpsertCall :=
  let itemsToPrint := buildItemsToPrint (db.deliveries.filter (fun d =>
    decide (d.notificationId ∈ ids)))
  let destRows := destOrdersFor db i.restaurantId i.newTableId
  let nonPrinted := destRows.find? (fun o => !o.printStatus)
  if !destRows.isEmpty && nonPrinted.isNone then
    { restaurantId := i.restaurantId, tableId := i.newTableId, items := itemsToPrint,
      orderType := "captain", orderId := none, forceNewOrder := true }
  else
    match nonPrinted with
    | some t =>
      { restaurantId := i.restaurantId, tableId := i.newTableId, items := itemsToPrint,
        orderType := "captain", orderId := some t.id, forceNewOrder := false }
    | none =>
      { restaurantId := i.restaurantId, tableId := i.newTableId, items := itemsToPrint,
        orderType := "captain", orderId := none, forceNewOrder := false }

theorem moveKOTCore_upsertCalls (db : DB) (i : MoveKOTInput) (ids : List Int) :
    (moveKOTCore db i ids).1.upsertCalls = db.upsertCalls ++ [kotCall db i ids] := by
  simp only [moveKOTCore]
  split <;> rfl

/-- C5: printed-table isolation.  When every destination order is printed,
`moveTable` only relabels the source row (no destination order changes),
while `moveItems` and `moveKOT` request a forced new order; when some
destination order is not printed, `moveTable` merges into the oldest such
order and `moveKOT` addresses its upsert to the oldest such order
(`moveItems` likewise requests a plain merge commit, whose target choice is
the external upsert service's). -/
theorem c5_printed_isolation :
    (∀ (db : DB) (inp : TableMoveInput) (s : Order) (srest : List Order),
      inp.oldTableId ≠ "" → inp.newTableId ≠ "" → inp.restaurantId ≠ "" →
      srcOrdersFor db inp.restaurantId inp.oldTableId = s :: srest →
      destOrdersFor db inp.restaurantId inp.newTableId ≠ [] →
      (∀ x ∈ destOrdersFor db inp.restaurantId inp.newTableId, x.printStatus = true) →
      ∃ p, moveTable db inp = Except.ok p ∧
        p.1.orders = db.orders.map (fun x =>
          if x.id = s.id then { x with tableId := inp.newTableId } else x)) ∧
    (∀ (db : DB) (inp : TableMoveInput) (s : Order) (srest : List Order),
      inp.oldTableId ≠ "" → inp.newTableId ≠ "" → inp.restaurantId ≠ "" →
      srcOrdersFor db inp.restaurantId inp.oldTableId = s :: srest →
      (∃ x ∈ destOrdersFor db inp.restaurantId inp.newTableId, x.printStatus = false) →
      ∃ t, t ∈ destOrdersFor db inp.restaurantId inp.newTableId ∧
        t.printStatus = false ∧
        (∀ x ∈ destOrdersFor db inp.restaurantId inp.newTableId,
          x.printStatus = false → t.createdAt ≤ x.createdAt) ∧
        mergeTarget (destOrdersFor db inp.restaurantId inp.newTableId) = some t ∧
        (t.id ≠ s.id →
          ∃ p, moveTable db inp = Except.ok p ∧
            ∃ o' ∈ p.1.orders, o'.id = t.id ∧ o'.items = mergeItems t.items s.items)) ∧
    (∀ (db : DB) (i : MoveItemsInput) (o : Order),
      fetchSource db i = some o →
      validateItems o.items i.items = none →
      isFullTableMove o.items i.items = false →
      (∀ x ∈ db.orders, x.restaurantId = i.restaurantId →
        x.tableId = i.newTableId → x.id ≠ i.orderId) →
      moveItems db i = Except.ok (moveItemsCore db i o) ∧
      ∃ u, (moveItemsCore db i o).1.upsertCalls = db.upsertCalls ++ [u] ∧
        u.orderId = none ∧
        ((destOrdersFor db i.restaurantId i.newTableId ≠ [] ∧
          (∀ x ∈ destOrdersFor db i.restaurantId i.newTableId, x.printStatus = true)) →
          u.forceNewOrder = true) ∧
        ((∃ x ∈ destOrdersFor db i.restaurantId i.newTableId, x.printStatus = false) →
          u.forceNewOrder = false)) ∧
    (∀ (db : DB) (i : MoveKOTInput) (ids : List Int),
      i.notificationIds = some ids →
      i.oldTableId ≠ "" → i.newTableId ≠ "" → i.restaurantId ≠ "" → i.orderId ≠ "" →
      ids.length ≠ kotActiveCount db i.restaurantId i.orderId →
      ∃ u, (moveKOT db i).1.upsertCalls = db.upsertCalls ++ [u] ∧
        ((destOrdersFor db i.restaurantId i.newTableId ≠ [] ∧
          (∀ x ∈ destOrdersFor db i.restaurantId i.newTableId, x.printStatus = true)) →
          u.forceNewOrder = true ∧ u.orderId = none) ∧
        ((∃ x ∈ destOrdersFor db i.restaurantId i.newTableId, x.printStatus = false) →
          ∃ t, t ∈ destOrdersFor db i.restaurantId i.newTableId ∧
            t.printStatus = false ∧
            (∀ x ∈ destOrdersFor db i.restaurantId i.newTableId,
              x.printStatus = false → t.createdAt ≤ x.createdAt) ∧
            u.forceNewOrder = false ∧ u.orderId = some t.id)) := by
  refine ⟨?_, ?_, ?_, ?_⟩
  · intro db inp s srest hvo hvn hvr hsrc hdne hall
    obtain ⟨d, drest, hd⟩ := List.exists_cons_of_ne_nil hdne
    have hfindnone : (destOrdersFor db inp.restaurantId inp.newTableId).find?
        (fun x => !x.printStatus) = none :=
      find_nonprinted_none _ (fun x hx => hall x ((mem_sortOrders x _).mpr hx))
    have ht : mergeTarget (destOrdersFor db inp.restaurantId inp.newTableId) = some d :=
      mergeTarget_of_none _ d drest hd hfindnone
    have hdmem : d ∈ destOrdersFor db inp.restaurantId inp.newTableId := by
      rw [hd]
      exact List.mem_cons_self _ _
    have hdp : d.printStatus = true := hall d hdmem
    have hcore := moveTableCore_reassign db inp d s srest hsrc ht hdp
    refine ⟨moveTableCore db inp, by simp [moveTable, hvo, hvn, hvr], ?_⟩
    rw [hcore, satellites_orders, reassign_orders]
  · intro db inp s srest hvo hvn hvr hsrc hex
    obtain ⟨x0, hx0, hx0p⟩ := hex
    have hex' : ∃ x ∈ db.orders.filter (fun x =>
        decide (x.restaurantId = inp.restaurantId ∧ x.tableId = inp.newTableId)),
        x.printStatus = false := ⟨x0, (mem_sortOrders x0 _).mp hx0, hx0p⟩
    obtain ⟨t, hfind⟩ := exists_find_nonprinted _ hex'
    obtain ⟨htmem0, htp, hmin0⟩ := find_nonprinted_min _ t hfind
    have htmem : t ∈ destOrdersFor db inp.restaurantId inp.newTableId :=
      (mem_sortOrders t _).mpr htmem0
    have hdne : destOrdersFor db inp.restaurantId inp.newTableId ≠ [] := by
      intro h
      rw [h] at htmem
      simp at htmem
    obtain ⟨d, drest, hd⟩ := List.exists_cons_of_ne_nil hdne
    have ht : mergeTarget (destOrdersFor db inp.restaurantId inp.newTableId) = some t :=
      mergeTarget_of_find _ d drest t hd hfind
    refine ⟨t, htmem, htp, ?_, ht, ?_⟩
    · intro x hx hxp
      exact hmin0 x ((mem_sortOrders x _).mp hx) hxp
    · intro hts
      have hcore := moveTableCore_merge db inp t s srest hsrc ht htp
      refine ⟨moveTableCore db inp, by simp [moveTable, hvo, hvn, hvr], ?_⟩
      rw [hcore, satellites_orders, mergeInto_orders]
      have htdb : t ∈ db.orders := (List.mem_filter.mp htmem0).1
      refine ⟨{ t with items := mergeItems t.items s.items, instructions := joinNonEmpty "\n" [t.instructions, s.instructions] }, ?_, rfl, rfl⟩
      refine List.mem_filter.mpr ⟨?_, by simp [hts]⟩
      exact List.mem_map.mpr ⟨t, htdb, by simp⟩
  · intro db i o hfetch hval hnf hids
    refine ⟨moveItems_run db i o hfetch hval hnf, ?_⟩
    refine ⟨_, moveItemsCore_upsertCalls db i o, rfl, ?_, ?_⟩
    · rintro ⟨hne, hall⟩
      have hfindnone : (destOrdersFor db i.restaurantId i.newTableId).find?
          (fun x => !x.printStatus) = none :=
        find_nonprinted_none _ (fun x hx => hall x ((mem_sortOrders x _).mpr hx))
      have hemp : (destOrdersFor db i.restaurantId i.newTableId).isEmpty = false := by
        cases hdd : destOrdersFor db i.restaurantId i.newTableId with
        | nil => exact absurd hdd hne
        | cons a l => simp
      simp only [miDestRows_eq db i o hids, hemp, hfindnone, Option.isNone_none,
        Bool.not_false, Bool.and_true]
    · intro hex
      obtain ⟨x0, hx0, hx0p⟩ := hex
      have hex' : ∃ x ∈ db.orders.filter (fun x =>
          decide (x.restaurantId = i.restaurantId ∧ x.tableId = i.newTableId)),
          x.printStatus = false := ⟨x0, (mem_sortOrders x0 _).mp hx0, hx0p⟩
      obtain ⟨t, hfind⟩ := exists_find_nonprinted _ hex'
      have hfind' : (destOrdersFor db i.restaurantId i.newTableId).find?
          (fun x => !x.printStatus) = some t := hfind
      simp only [miDestRows_eq db i o hids, hfind', Option.isNone_some,
        Bool.and_false]
  · intro db i ids hids hvo hvn hvr hvoid hlen
    rw [moveKOT_run db i ids hids hvo hvn hvr hvoid hlen]
    refine ⟨kotCall db i ids, moveKOTCore_upsertCalls db i ids, ?_, ?_⟩
    · rintro ⟨hne, hall⟩
      have hfindnone : (destOrdersFor db i.restaurantId i.newTableId).find?
          (fun x => !x.printStatus) = none :=
        find_nonprinted_none _ (fun x hx => hall x ((mem_sortOrders x _).mpr hx))
      have hemp : (destOrdersFor db i.restaurantId i.newTableId).isEmpty = false := by
        cases hdd : destOrdersFor db i.restaurantId i.newTableId with
        | nil => exact absurd hdd hne
        | cons a l => simp
      constructor <;>
        simp [kotCall, hemp, hfindnone]
    · intro hex
      obtain ⟨x0, hx0, hx0p⟩ := hex
      have hex' : ∃ x ∈ db.orders.filter (fun x =>
          decide (x.restaurantId = i.restaurantId ∧ x.tableId = i.newTableId)),
          x.printStatus = false := ⟨x0, (mem_sortOrders x0 _).mp hx0, hx0p⟩
      obtain ⟨t, hfind⟩ := exists_find_nonprinted _ hex'
      obtain ⟨htmem0, htp, hmin0⟩ := find_nonprinted_min _ t hfind
      have hfind' : (destOrdersFor db i.restaurantId i.newTableId).find?
          (fun x => !x.printStatus) = some t := hfind
      refine ⟨t, (mem_sortOrders t _).mpr htmem0, htp, ?_, ?_, ?_⟩
      · intro x hx hxp
        exact hmin0 x ((mem_sortOrders x _).mp hx) hxp
      · simp [kotCall, hfind']
      · simp [kotCall, hfind']

/-- Fixture for the C5 witness, all-printed scenario: the printed
destination order on T2. -/
def c5aDest : Order :=
  ⟨"D1", "R", "T2", [("A", ⟨"", "", some 1, [⟨"", "", 1, none, true, 0, ""⟩]⟩)], "", true, 0⟩

/-- Fixture for the C5 witness: the source order on T1. -/
def c5aSrc : Order :=
  ⟨"S1", "R", "T1", [("B", ⟨"", "", some 2, [⟨"", "", 2, none, true, 0, ""⟩]⟩)], "", false, 1⟩

/-- Fixture for the C5 witness, all-printed scenario. -/
def c5aDB : DB := { orders := [c5aDest, c5aSrc] }

/-- Fixture for the C5 witness: a half-quantity item move to T2. -/
def c5aItemsInput : MoveItemsInput := ⟨"R", "T1", "T2", "S1", [⟨"B", 1⟩]⟩

/-- Fixture for the C5 witness: a non-delegating ticket move to T2. -/
def c5aKotInput : MoveKOTInput := ⟨"T1", "T2", "R", "S1", some [5]⟩

/-- Fixture for the C5 witness, non-printed scenario: a printed order and a
younger non-printed order on T2. -/
def c5bDest1 : Order :=
  ⟨"D1", "R", "T2", [("A", ⟨"", "", some 1, [⟨"", "", 1, none, true, 0, ""⟩]⟩)], "", true, 0⟩

/-- Fixture for the C5 witness: the non-printed destination order on T2. -/
def c5bDest2 : Order :=
  ⟨"D2", "R", "T2", [("A", ⟨"", "", some 1, [⟨"", "", 1, none, true, 0, ""⟩]⟩)], "", false, 5⟩

/-- Fixture for the C5 witness: the source order on T1. -/
def c5bSrc : Order :=
  ⟨"S1", "R", "T1", [("B", ⟨"", "", some 2, [⟨"", "", 2, none, true, 0, ""⟩]⟩)], "", false, 1⟩

/-- Fixture for the C5 witness, non-printed scenario. -/
def c5bDB : DB := { orders := [c5bDest1, c5bDest2, c5bSrc] }

/-- Fixture for the C5 witness: a non-delegating ticket move to T2. -/
def c5bKotInput : MoveKOTInput := ⟨"T1", "T2", "R", "S1", some [9]⟩

/-- Witness for C5: with every T2 order printed, `moveTable` relabels and
both movers force a new order; with a non-printed T2 order present,
`moveTable` merges into it and `moveKOT` addresses it. -/
theorem c5_witness :
    (∃ p, moveTable c5aDB ⟨"T1", "T2", "R", some "S1"⟩ = Except.ok p ∧
      p.1.orders = c5aDB.orders.map (fun x =>
        if x.id = "S1" then { x with tableId := "T2" } else x)) ∧
    (∃ u, (moveItemsCore c5aDB c5aItemsInput c5aSrc).1.upsertCalls =
        c5aDB.upsertCalls ++ [u] ∧ u.forceNewOrder = true) ∧
    (∃ u, (moveKOT c5aDB c5aKotInput).1.upsertCalls =
        c5aDB.upsertCalls ++ [u] ∧ u.forceNewOrder = true ∧ u.orderId = none) ∧
    (∃ t, mergeTarget (destOrdersFor c5bDB "R" "T2") = some t ∧
      t.printStatus = false ∧
      (t.id ≠ "S1" →
        ∃ p, moveTable c5bDB ⟨"T1", "T2", "R", some "S1"⟩ = Except.ok p ∧
          ∃ o' ∈ p.1.orders, o'.id = t.id ∧
            o'.items = mergeItems t.items c5bSrc.items)) ∧
    (∃ (u : UpsertCall) (t : Order), (moveKOT c5bDB c5bKotInput).1.upsertCalls =
        c5bDB.upsertCalls ++ [u] ∧ t.printStatus = false ∧
      u.forceNewOrder = false ∧ u.orderId = some t.id) := by
  refine ⟨?_, ?_, ?_, ?_, ?_⟩
  · exact c5_printed_isolation.1 c5aDB ⟨"T1", "T2", "R", some "S1"⟩ c5aSrc []
      (by decide) (by decide) (by decide) (by decide) (by decide) (by decide)
  · obtain ⟨hrun, u, hu, hnone, hforce, hsoft⟩ :=
      c5_printed_isolation.2.2.1 c5aDB c5aItemsInput c5aSrc (by decide) (by decide)
        (by decide) (by decide)
    exact ⟨u, hu, hforce ⟨by decide, by decide⟩⟩
  · obtain ⟨u, hu, hforce, hsoft⟩ :=
      c5_printed_isolation.2.2.2 c5aDB c5aKotInput [5] rfl (by decide) (by decide)
        (by decide) (by decide) (by decide)
    exact ⟨u, hu, (hforce ⟨by decide, by decide⟩).1, (hforce ⟨by decide, by decide⟩).2⟩
  · obtain ⟨t, htmem, htp, hmin, hmt, hmerge⟩ :=
      c5_printed_isolation.2.1 c5bDB ⟨"T1", "T2", "R", some "S1"⟩ c5bSrc []
        (by decide) (by decide) (by decide) (by decide) (by decide)
    exact ⟨t, hmt, htp, fun hts => hmerge hts⟩
  · obtain ⟨u, hu, hforce, hsoft⟩ :=
      c5_printed_isolation.2.2.2 c5bDB c5bKotInput [9] rfl (by decide) (by decide)
        (by decide) (by decide) (by decide)
    obtain ⟨t, htmem, htp, hmin, huf, huo⟩ := hsoft (by decide)
    exact ⟨u, t, hu, htp, huf, huo⟩
